import Mathlib

/-!
# go-metrics-cloudwatch: the reporter

A shallow embedding of `reporter/cloudwatch.go`: the translation of a metrics
registry into CloudWatch data points (`metricsData`) and their submission in
requests of at most 20 data points (`emitMetrics`, `putMetrics`).

Modelling conventions.

* `float64` is a type parameter `F`.  The two floating-point operations the
  source uses, the conversion `float64(x)` of an `int64` and the formatting verb
  `%.3f`, are fields of `Runtime`; nothing is assumed about them.
* `int64` values are integers; the source only compares them with `0` and
  converts them, it does no arithmetic on them.
* A Go map is an association list with distinct keys, in insertion order.  The
  order in which a `range` statement visits a map is not specified by the
  language; `Runtime.mapOrder k n` is the order chosen by the `k`-th `range`
  statement over a map executed by `metricsData`, for a map of `n` entries.
* The registry is the list of `(name, metric)` pairs in the order in which
  `registry.Each` visits them during the call.  Every entry owns its metric: a
  metric of a kind with a `Snapshot` method is represented by the snapshot the
  call observes, a counter by its count.
* `time.Now()` is the parameter `now`.
* The lines `log.Printf` writes are recorded for `putMetrics` only; the debug
  dumps of `metricsData` (`%+v` of a snapshot) change no state the program
  reads and are left out.
-/

namespace Reporter

/-! ## The data model -/

/-- Instants, the values of `time.Time`. -/
abbrev Time := Nat

/-- The constant `cloudwatch.StandardUnitCount`. -/
def StandardUnitCount : String := "Count"

/-- The type `cloudwatch.Dimension`. -/
structure Dimension where
  Name : String
  Value : String
  deriving DecidableEq, Repr

/-- The fields of `cloudwatch.MetricDatum` the reporter sets; a pointer field
that is never assigned is `none`. -/
structure MetricDatum (F : Type) where
  MetricName : String
  Timestamp : Time
  Dimensions : List Dimension
  Unit : Option String
  Value : Option F
  deriving DecidableEq, Repr

/-- The type `cloudwatch.PutMetricDataInput`. -/
structure PutMetricDataInput (F : Type) where
  Namespace : String
  MetricData : List (MetricDatum F)
  deriving DecidableEq, Repr

/-- What `metrics.Histogram.Snapshot()` answers to the calls the reporter makes. -/
structure HistogramSnapshot (F : Type) where
  Count : Int
  Percentile : F → F

/-- What `metrics.Meter.Snapshot()` answers to the calls the reporter makes. -/
structure MeterSnapshot (F : Type) where
  Count : Int
  Rate1 : F
  Rate5 : F
  Rate15 : F
  RateMean : F

/-- What `metrics.Timer.Snapshot()` answers to the calls the reporter makes. -/
structure TimerSnapshot (F : Type) where
  Count : Int
  Rate1 : F
  Rate5 : F
  Rate15 : F
  RateMean : F
  Percentile : F → F

/-- The dynamic type of a registry value, as the type switch of `metricsData`
tells them apart.  `Other` is a value of none of the six interfaces. -/
inductive Metric (F : Type) where
  | Counter (count : Int)
  | Gauge (value : Int)
  | GaugeFloat64 (value : F)
  | Histogram (snapshot : HistogramSnapshot F)
  | Meter (snapshot : MeterSnapshot F)
  | Timer (snapshot : TimerSnapshot F)
  | Other

/-- The registry, in the order `registry.Each` visits it. -/
abbrev Registry (F : Type) := List (String × Metric F)

/-- The interface `config.Filter`, for the configuration it is called with. -/
structure Filter (F : Type) where
  ShouldReport : String → Bool
  Percentiles : String → List F

/-- The CloudWatch client: `PutMetricData sent req` is the error the call
returns (`none` for `nil`) when `sent` are the requests made before it. -/
structure CloudWatchClient (F : Type) where
  PutMetricData : List (PutMetricDataInput F) → PutMetricDataInput F → Option String

/-- The fields of `config.Config` the reporter reads. -/
structure Config (F : Type) where
  Client : CloudWatchClient F
  Filter : Filter F
  Namespace : String
  StaticDimensions : List (String × String)
  ResetCountersOnReport : Bool
  Debug : Bool

/-- The operations of the Go runtime the reporter relies on. -/
structure Runtime (F : Type) where
  /-- The conversion `float64(x)` of an `int64`. -/
  float64 : Int → F
  /-- The text `fmt.Sprintf("%.3f", p)`. -/
  sprintf3f : F → String
  /-- The positions of a map of `n` entries in the order the `k`-th `range`
  statement visits them. -/
  mapOrder : Nat → Nat → List Nat
  mapOrder_perm : ∀ k n, (mapOrder k n).Perm (List.range n)

/-- A line written by `log.Printf` in `putMetrics`. -/
inductive LogLine where
  | atError (error : String)
  | atPutMetrics (count : Nat)
  deriving DecidableEq, Repr

/-- What `putMetrics` leaves outside the program: the requests made to the
client, in order, and the lines logged. -/
structure World (F : Type) where
  requests : List (PutMetricDataInput F)
  log : List LogLine
  deriving DecidableEq, Repr

/-! ## Go maps -/

/-- The assignment `m[k] = v`. -/
def mapSet {V : Type} : List (String × V) → String → V → List (String × V)
  | [], k, v => [(k, v)]
  | (k', v') :: m, k, v => if k' = k then (k', v) :: m else (k', v') :: mapSet m k v

/-- A map literal: the entries are assigned from first to last. -/
def mapLiteral {V : Type} (entries : List (String × V)) : List (String × V) :=
  entries.foldl (fun m kv => mapSet m kv.1 kv.2) []

/-- The entries of `m` in the order the `k`-th `range` statement visits them. -/
def rangeMap {F V : Type} (rt : Runtime F) (k : Nat) (m : List (String × V)) :
    List (String × V) :=
  (rt.mapOrder k m.length).filterMap (fun i => m[i]?)

/-! ## The reporter -/

variable {F : Type}

/-- The function `dimensions`, called as the `k`-th `range` over a map. -/
def dimensions (rt : Runtime F) (c : Config F) (k : Nat) : List Dimension :=
  (rangeMap rt k c.StaticDimensions).foldl
    (fun ds kv => ds ++ [{ Name := kv.1, Value := kv.2 }]) []

/-- The closure `aDatum` of `metricsData`; its call of `dimensions` is the
`k`-th `range` over a map. -/
def aDatum (rt : Runtime F) (cfg : Config F) (timestamp : Time) (k : Nat) (name : String) :
    MetricDatum F :=
  { MetricName := name
    Timestamp := timestamp
    Dimensions := dimensions rt cfg k
    Unit := none
    Value := none }

/-- The variables of `metricsData` the callback of `registry.Each` updates:
the slice `data`, and the number of `range` statements over a map executed so
far. -/
structure Acc (F : Type) where
  data : List (MetricDatum F)
  ranges : Nat
  deriving DecidableEq, Repr

/-- The loop `for _, p := range cfg.Filter.Percentiles(name)` of the Histogram
and Timer cases, over the percentiles left; `percentile` is the method
`Percentile` of the snapshot. -/
def percentileLoop (rt : Runtime F) (cfg : Config F) (timestamp : Time) (name : String)
    (percentile : F → F) : List F → Acc F → Acc F
  | [], s => s
  | p :: ps, s =>
    let datum := aDatum rt cfg timestamp s.ranges (name ++ "-perc" ++ rt.sprintf3f p)
    let datum := { datum with Value := some (percentile p) }
    percentileLoop rt cfg timestamp name percentile ps
      { data := s.data ++ [datum], ranges := s.ranges + 1 }

/-- The body of the loop `for n, v := range dataz` of the Meter and Timer cases,
over the entries left in the order of the iteration. -/
def datazLoop (rt : Runtime F) (cfg : Config F) (timestamp : Time) :
    List (String × F) → Acc F → Acc F
  | [], s => s
  | (n, v) :: rest, s =>
    let datum := aDatum rt cfg timestamp s.ranges n
    let datum := { datum with Value := some v }
    datazLoop rt cfg timestamp rest { data := s.data ++ [datum], ranges := s.ranges + 1 }

/-- The callback `metricsData` passes to `registry.Each`, called on the entry
`(name, i)`: the new values of the variables and the metric as the call leaves
it. -/
def visit (rt : Runtime F) (cfg : Config F) (timestamp : Time) (name : String)
    (i : Metric F) (s : Acc F) : Acc F × Metric F :=
  if !cfg.Filter.ShouldReport name then (s, i)
  else
    match i with
    | .Counter count =>
      let datum := aDatum rt cfg timestamp s.ranges name
      let datum := { datum with Unit := some StandardUnitCount }
      let datum := { datum with Value := some (rt.float64 count) }
      let data := if count > 0 then s.data ++ [datum] else s.data
      let metric := if cfg.ResetCountersOnReport then Metric.Counter 0 else Metric.Counter count
      ({ data := data, ranges := s.ranges + 1 }, metric)
    | .Gauge value =>
      let datum := aDatum rt cfg timestamp s.ranges name
      let datum := { datum with Unit := some StandardUnitCount }
      let datum := { datum with Value := some (rt.float64 value) }
      ({ data := s.data ++ [datum], ranges := s.ranges + 1 }, i)
    | .GaugeFloat64 value =>
      let datum := aDatum rt cfg timestamp s.ranges name
      let datum := { datum with Unit := some StandardUnitCount }
      let datum := { datum with Value := some value }
      ({ data := s.data ++ [datum], ranges := s.ranges + 1 }, i)
    | .Histogram h =>
      if h.Count = 0 then (s, i)
      else (percentileLoop rt cfg timestamp name h.Percentile (cfg.Filter.Percentiles name) s, i)
    | .Meter m =>
      let dataz := mapLiteral
        [ (name ++ ".count", rt.float64 m.Count),
          (name ++ ".one-minute", m.Rate1),
          (name ++ ".five-minute", m.Rate5),
          (name ++ ".fifteen-minute", m.Rate15),
          (name ++ ".mean", m.RateMean) ]
      let s := datazLoop rt cfg timestamp (rangeMap rt s.ranges dataz)
        { s with ranges := s.ranges + 1 }
      (s, i)
    | .Timer t =>
      if t.Count = 0 then (s, i)
      else
        let dataz := mapLiteral
          [ (name ++ ".count", rt.float64 t.Count),
            (name ++ ".one-minute", t.Rate1),
            (name ++ ".five-minute", t.Rate5),
            (name ++ ".fifteen-minute", t.Rate15),
            (name ++ ".mean", t.RateMean) ]
        let s := datazLoop rt cfg timestamp (rangeMap rt s.ranges dataz)
          { s with ranges := s.ranges + 1 }
        (percentileLoop rt cfg timestamp name t.Percentile (cfg.Filter.Percentiles name) s, i)
    | .Other => (s, i)

/-- The call `registry.Each(f)` for the callback of `metricsData`: the entries
are visited in order; the result is the variables after the last visit and the
registry as the visits leave it. -/
def registryEach (rt : Runtime F) (cfg : Config F) (timestamp : Time) :
    Registry F → Acc F → Acc F × Registry F
  | [], s => (s, [])
  | (name, i) :: rest, s =>
    let r := visit rt cfg timestamp name i s
    let q := registryEach rt cfg timestamp rest r.1
    (q.1, (name, r.2) :: q.2)

/-- The result of `metricsData`: the slice it returns and the registry as it
leaves it. -/
structure Collected (F : Type) where
  data : List (MetricDatum F)
  registry : Registry F

/-- The function `metricsData`, called at the instant `now`. -/
def metricsData (rt : Runtime F) (cfg : Config F) (now : Time) (registry : Registry F) :
    Collected F :=
  let r := registryEach rt cfg now registry { data := [], ranges := 0 }
  { data := r.1.data, registry := r.2 }

/-- The function `putMetrics`. -/
def putMetrics (cfg : Config F) (data : List (MetricDatum F)) (w : World F) : World F :=
  let req : PutMetricDataInput F := { Namespace := cfg.Namespace, MetricData := data }
  let err := cfg.Client.PutMetricData w.requests req
  let w := { w with requests := w.requests ++ [req] }
  match err with
  | some e => { w with log := w.log ++ [LogLine.atError e] }
  | none =>
    if cfg.Debug then { w with log := w.log ++ [LogLine.atPutMetrics req.MetricData.length] }
    else w

/-- The loop `for len(data) > 20` of `emitMetrics`: the value of `data` when
the loop ends, and the world after the submissions. -/
def emitLoop (cfg : Config F) (data : List (MetricDatum F)) (w : World F) :
    List (MetricDatum F) × World F :=
  if _h : data.length > 20 then
    let put := data.take 20
    emitLoop cfg (data.drop 20) (putMetrics cfg put w)
  else (data, w)
termination_by data.length
decreasing_by simp only [List.length_drop]; omega

/-- The function `emitMetrics`, called at the instant `now`: the world after
the submissions and the registry as the call leaves it. -/
def emitMetrics (rt : Runtime F) (cfg : Config F) (now : Time) (registry : Registry F)
    (w : World F) : World F × Registry F :=
  let r := metricsData rt cfg now registry
  let l := emitLoop cfg r.data w
  let w := if l.1.length > 0 then putMetrics cfg l.1 l.2 else l.2
  (w, r.registry)

/-- The batches handed to `putMetrics` between the worlds `w` and `w'`, in the
order of submission: the `MetricData` of the requests made after those of `w`. -/
def submitted (w w' : World F) : List (List (MetricDatum F)) :=
  (w'.requests.drop w.requests.length).map (fun req => req.MetricData)

/-- The name, value and unit of a data point. -/
def MetricDatum.view (d : MetricDatum F) : String × Option F × Option String :=
  (d.MetricName, d.Value, d.Unit)

/-- The variables of `metricsData` when `registry.Each` has visited the entries
`visited`. -/
def accAfter (rt : Runtime F) (cfg : Config F) (now : Time) (visited : Registry F) : Acc F :=
  (registryEach rt cfg now visited { data := [], ranges := 0 }).1

/-! ## The batching algorithm of the specification -/

namespace Spec

/-- The Batcher as the specification words it: repeatedly take the first
`maxSize` elements of the remaining input as a batch until fewer than `maxSize`
remain, then emit the remainder as a final batch, skipped when it is empty.
`maxSize` is a positive integer. -/
def batch {α : Type} (points : List α) (maxSize : Nat) : List (List α) :=
  if _h : 0 < maxSize ∧ maxSize ≤ points.length then
    points.take maxSize :: batch (points.drop maxSize) maxSize
  else if points.length = 0 then []
  else [points]
termination_by points.length
decreasing_by simp only [List.length_drop]; omega

end Spec

/-! ## A concrete configuration

Used to evaluate the reporter: `float64` is the numbers with three decimals,
held as a count of thousandths. -/

namespace Example

/-- A number with three decimals: `milli` thousandths. -/
structure Fixed3 where
  milli : Int
  deriving DecidableEq, Repr

/-- The three decimals of `n` thousandths, `n < 1000`. -/
def decimals (n : Nat) : String :=
  (if n < 10 then "00" else if n < 100 then "0" else "") ++ toString n

/-- The verb `%.3f` on a number with three decimals. -/
def sprintf3f (x : Fixed3) : String :=
  (if x.milli < 0 then "-" else "") ++ toString (x.milli.natAbs / 1000) ++ "."
    ++ decimals (x.milli.natAbs % 1000)

/-- A runtime whose `k`-th `range` over a map starts `k` entries after the
first one and wraps around. -/
def runtime : Runtime Fixed3 where
  float64 x := { milli := 1000 * x }
  sprintf3f := sprintf3f
  mapOrder k n := (List.range n).rotate k
  mapOrder_perm k n := List.rotate_perm (List.range n) k

/-- A filter that reports every name but `"unreported"`, with the percentiles
0.5 and 0.99. -/
def filter : Filter Fixed3 where
  ShouldReport name := name != "unreported"
  Percentiles _ := [{ milli := 500 }, { milli := 990 }]

/-- A client whose first call fails. -/
def client : CloudWatchClient Fixed3 where
  PutMetricData sent _ := if sent.length = 0 then some "Throttling" else none

/-- A configuration that resets the counters. -/
def cfg : Config Fixed3 where
  Client := client
  Filter := filter
  Namespace := "app"
  StaticDimensions := [("env", "prod"), ("host", "a")]
  ResetCountersOnReport := true
  Debug := false

/-- The percentiles of the timer `"latency"`: 12.0 at 0.5 and 50.0 at 0.99. -/
def latencyPercentile (p : Fixed3) : Fixed3 :=
  if p.milli = 500 then { milli := 12000 }
  else if p.milli = 990 then { milli := 50000 }
  else { milli := 0 }

/-- The timer `"latency"`: count 10, rates 1.0, 0.8, 0.5 and mean rate 0.9. -/
def latency : TimerSnapshot Fixed3 where
  Count := 10
  Rate1 := { milli := 1000 }
  Rate5 := { milli := 800 }
  Rate15 := { milli := 500 }
  RateMean := { milli := 900 }
  Percentile := latencyPercentile

/-- A meter that has seen no event. -/
def idle : MeterSnapshot Fixed3 where
  Count := 0
  Rate1 := { milli := 0 }
  Rate5 := { milli := 0 }
  Rate15 := { milli := 0 }
  RateMean := { milli := 0 }

/-- A histogram of 4 values. -/
def sizes : HistogramSnapshot Fixed3 where
  Count := 4
  Percentile := latencyPercentile

/-- A histogram that has recorded no value. -/
def cold : HistogramSnapshot Fixed3 where
  Count := 0
  Percentile := latencyPercentile

/-- A timer that has recorded no event. -/
def unused : TimerSnapshot Fixed3 where
  Count := 0
  Rate1 := { milli := 0 }
  Rate5 := { milli := 0 }
  Rate15 := { milli := 0 }
  RateMean := { milli := 0 }
  Percentile := latencyPercentile

/-- The world before any request. -/
def quiet : World Fixed3 where
  requests := []
  log := []

/-- A registry with the counter `"req.count"` at 5 and the gauge `"mem.used"`
at 120. -/
def scenario : Registry Fixed3 :=
  [("req.count", Metric.Counter 5), ("mem.used", Metric.Gauge 120)]

/-- A registry of `n` gauges, named `g0`, `g1`, and so on. -/
def gauges (n : Nat) : Registry Fixed3 :=
  (List.range n).map (fun i => ("g" ++ toString i, Metric.Gauge i))

/-- A client whose every call succeeds. -/
def reliable : CloudWatchClient Fixed3 where
  PutMetricData _ _ := none

/-- The configuration `cfg` with the client that never fails. -/
def cfgReliable : Config Fixed3 :=
  { cfg with Client := reliable }

end Example

/-! ## Theorems -/

theorem putMetrics_requests (cfg : Config F) (data : List (MetricDatum F)) (w : World F) :
    (putMetrics cfg data w).requests
      = w.requests ++ [{ Namespace := cfg.Namespace, MetricData := data }] := by
  unfold putMetrics
  dsimp only
  split
  · rfl
  · split <;> rfl

theorem emitLoop_unfold (cfg : Config F) (data : List (MetricDatum F)) (w : World F) :
    emitLoop cfg data w
      = if data.length > 20 then emitLoop cfg (data.drop 20) (putMetrics cfg (data.take 20) w)
        else (data, w) := by
  rw [emitLoop]
  split <;> rfl

/-- What the loop of `emitMetrics` does: it submits full batches, a prefix of
`data`, and leaves the rest, which is non-empty when `data` is and has at most 20
elements. -/
theorem emitLoop_spec (cfg : Config F) (n : Nat) :
    ∀ (data : List (MetricDatum F)) (w : World F), data.length ≤ n →
      ∃ bs : List (List (MetricDatum F)),
        (emitLoop cfg data w).2.requests
            = w.requests ++ bs.map (fun b => { Namespace := cfg.Namespace, MetricData := b })
          ∧ bs.flatten ++ (emitLoop cfg data w).1 = data
          ∧ (∀ b ∈ bs, b.length = 20)
          ∧ (emitLoop cfg data w).1.length ≤ 20
          ∧ (0 < data.length → 0 < (emitLoop cfg data w).1.length) := by
  induction n with
  | zero =>
    intro data w hn
    rw [emitLoop_unfold, if_neg (by omega)]
    exact ⟨[], by simp, by simp, by simp, by simp; omega, fun h => h⟩
  | succ n ih =>
    intro data w hn
    rw [emitLoop_unfold]
    by_cases h : data.length > 20
    · rw [if_pos h]
      obtain ⟨bs, h1, h2, h3, h4, h5⟩ :=
        ih (data.drop 20) (putMetrics cfg (data.take 20) w) (by simp; omega)
      refine ⟨data.take 20 :: bs, ?_, ?_, ?_, h4, fun _ => h5 (by simp; omega)⟩
      · rw [h1, putMetrics_requests]; simp
      · simp only [List.flatten_cons, List.append_assoc, h2, List.take_append_drop]
      · intro b hb
        rcases List.mem_cons.1 hb with rfl | hb
        · simp; omega
        · exact h3 b hb
    · rw [if_neg h]
      exact ⟨[], by simp, by simp, by simp, by simp; omega, fun h => h⟩

/-- The batches `emitMetrics` submits: the full batches of the loop, then the
rest when it is not empty. -/
theorem emitMetrics_submitted (rt : Runtime F) (cfg : Config F) (now : Time)
    (registry : Registry F) (w : World F) :
    ∃ (bs : List (List (MetricDatum F))) (rest : List (MetricDatum F)),
      submitted w (emitMetrics rt cfg now registry w).1
          = bs ++ (if rest.length > 0 then [rest] else [])
        ∧ bs.flatten ++ rest = (metricsData rt cfg now registry).data
        ∧ (∀ b ∈ bs, b.length = 20)
        ∧ rest.length ≤ 20
        ∧ (0 < (metricsData rt cfg now registry).data.length → 0 < rest.length) := by
  obtain ⟨bs, h1, h2, h3, h4, h5⟩ :=
    emitLoop_spec cfg _ (metricsData rt cfg now registry).data w le_rfl
  refine ⟨bs, (emitLoop cfg (metricsData rt cfg now registry).data w).1, ?_, h2, h3, h4, h5⟩
  unfold submitted emitMetrics
  dsimp only
  have hmap : List.map ((fun req : PutMetricDataInput F => req.MetricData) ∘
      fun b => { Namespace := cfg.Namespace, MetricData := b }) bs = bs := by
    rw [show ((fun req : PutMetricDataInput F => req.MetricData) ∘
      fun b => { Namespace := cfg.Namespace, MetricData := b }) = id from rfl, List.map_id]
  split
  · rw [putMetrics_requests, h1]; simp [hmap]
  · rw [h1]; simp [hmap]

theorem length_flatten_of_full {α : Type} (bs : List (List α)) (h : ∀ b ∈ bs, b.length = 20) :
    bs.flatten.length = 20 * bs.length := by
  induction bs with
  | nil => rfl
  | cons b bs ih =>
    rw [List.flatten_cons, List.length_append, ih (fun c hc => h c (List.mem_cons_of_mem _ hc)),
      h b (List.mem_cons_self _ _), List.length_cons]
    omega

theorem ceil_div_twenty (k r : Nat) (h0 : 0 < r) (h20 : r ≤ 20) :
    ⌈((20 * k + r : Nat) : ℚ) / 20⌉₊ = k + 1 := by
  rw [Nat.ceil_eq_iff (by omega)]
  have hr0 : (0 : ℚ) < r := by exact_mod_cast h0
  have hr20 : (r : ℚ) ≤ 20 := by exact_mod_cast h20
  constructor
  · rw [lt_div_iff₀ (by norm_num)]
    push_cast
    linarith
  · rw [div_le_iff₀ (by norm_num)]
    push_cast
    linarith

/-- When `metricsData` returns between 1 and 20 data points, `emitMetrics`
submits them as one batch. -/
theorem submitted_of_le_twenty (rt : Runtime F) (cfg : Config F) (now : Time)
    (registry : Registry F) (w : World F)
    (h0 : 0 < (metricsData rt cfg now registry).data.length)
    (h20 : (metricsData rt cfg now registry).data.length ≤ 20) :
    submitted w (emitMetrics rt cfg now registry w).1 = [(metricsData rt cfg now registry).data] := by
  have hloop : emitLoop cfg (metricsData rt cfg now registry).data w
      = ((metricsData rt cfg now registry).data, w) := by
    rw [emitLoop_unfold]
    exact if_neg (by omega)
  unfold submitted emitMetrics
  dsimp only
  rw [hloop]
  dsimp only
  rw [if_pos h0, putMetrics_requests]
  simp

/-- C1: the concatenation, in the order of submission, of the batches
`emitMetrics` hands to `putMetrics` is the sequence `metricsData` returned: no
data point is dropped, duplicated or reordered. -/
theorem emitMetrics_batches_concat (rt : Runtime F) (cfg : Config F) (now : Time)
    (registry : Registry F) (w : World F) :
    (submitted w (emitMetrics rt cfg now registry w).1).flatten
      = (metricsData rt cfg now registry).data := by
  obtain ⟨bs, rest, h1, h2, -, -, -⟩ := emitMetrics_submitted rt cfg now registry w
  rw [h1, ← h2]
  split
  · simp
  · have : rest = [] := List.length_eq_zero.1 (by omega)
    simp [this]

/-- C2: every batch `emitMetrics` hands to `putMetrics` has at least 1 and at
most 20 elements. -/
theorem emitMetrics_batch_size (rt : Runtime F) (cfg : Config F) (now : Time)
    (registry : Registry F) (w : World F) (b : List (MetricDatum F))
    (hb : b ∈ submitted w (emitMetrics rt cfg now registry w).1) :
    1 ≤ b.length ∧ b.length ≤ 20 := by
  obtain ⟨bs, rest, h1, -, h3, h4, -⟩ := emitMetrics_submitted rt cfg now registry w
  rw [h1] at hb
  rcases List.mem_append.1 hb with hb | hb
  · have := h3 b hb
    omega
  · split at hb
    · rw [List.mem_singleton] at hb
      subst hb
      omega
    · simp at hb

/-- The scenario of the counter and the gauge: the two data points are submitted
as one batch of size 2. -/
theorem emitMetrics_batch_size_witness :
    (metricsData Example.runtime Example.cfg 7 Example.scenario).data
        ∈ submitted Example.quiet
          (emitMetrics Example.runtime Example.cfg 7 Example.scenario Example.quiet).1
      ∧ 1 ≤ (metricsData Example.runtime Example.cfg 7 Example.scenario).data.length
      ∧ (metricsData Example.runtime Example.cfg 7 Example.scenario).data.length ≤ 20
      ∧ (metricsData Example.runtime Example.cfg 7 Example.scenario).data.length = 2 :=
  have hin : (metricsData Example.runtime Example.cfg 7 Example.scenario).data
      ∈ submitted Example.quiet
        (emitMetrics Example.runtime Example.cfg 7 Example.scenario Example.quiet).1 := by
    rw [submitted_of_le_twenty Example.runtime Example.cfg 7 Example.scenario Example.quiet
      (by decide) (by decide)]
    exact List.mem_singleton_self _
  have hsize := emitMetrics_batch_size Example.runtime Example.cfg 7 Example.scenario
    Example.quiet _ hin
  ⟨hin, hsize.1, hsize.2, by decide⟩

/-- C3: for `L` data points returned by `metricsData`, `emitMetrics` submits
`ceil(L/20)` batches when `L > 0` and no batch when `L = 0`. -/
theorem emitMetrics_batch_count (rt : Runtime F) (cfg : Config F) (now : Time)
    (registry : Registry F) (w : World F) :
    (submitted w (emitMetrics rt cfg now registry w).1).length
      = if (metricsData rt cfg now registry).data.length > 0
        then ⌈((metricsData rt cfg now registry).data.length : ℚ) / 20⌉₊ else 0 := by
  obtain ⟨bs, rest, h1, h2, h3, h4, h5⟩ := emitMetrics_submitted rt cfg now registry w
  have hlen : (metricsData rt cfg now registry).data.length = 20 * bs.length + rest.length := by
    rw [← h2, List.length_append, length_flatten_of_full bs h3]
  rw [h1, List.length_append]
  by_cases hL : (metricsData rt cfg now registry).data.length > 0
  · have hr := h5 hL
    rw [if_pos hL, if_pos hr, hlen, ceil_div_twenty _ _ hr h4]
    rfl
  · rw [if_neg hL]
    have hr : ¬ rest.length > 0 := by omega
    rw [if_neg hr]
    simp only [List.length_nil, Nat.add_zero]
    omega

/-! ### Maps -/

theorem filterMap_range_getElem {α : Type} (m : List α) :
    (List.range m.length).filterMap (fun i => m[i]?) = m := by
  induction m with
  | nil => rfl
  | cons a m ih =>
    rw [List.length_cons, List.range_succ_eq_map, List.filterMap_cons]
    simp only [List.getElem?_cons_zero, List.filterMap_map]
    have hsucc : ((fun i => (a :: m)[i]?) ∘ Nat.succ) = fun i => m[i]? := by
      funext i
      simp
    rw [hsucc, ih]

theorem rangeMap_perm {V : Type} (rt : Runtime F) (k : Nat) (m : List (String × V)) :
    (rangeMap rt k m).Perm m := by
  unfold rangeMap
  have h := (rt.mapOrder_perm k m.length).filterMap (fun i => m[i]?)
  rwa [filterMap_range_getElem] at h

theorem string_append_cancel (name a b : String) (h : name ++ a = name ++ b) : a = b := by
  have hd := congrArg String.data h
  rw [String.data_append, String.data_append] at hd
  exact String.ext (List.append_cancel_left hd)

theorem string_append_ne (name : String) {a b : String} (h : a ≠ b) : name ++ a ≠ name ++ b :=
  fun e => h (string_append_cancel name a b e)

/-- The map literal `dataz` of the Meter and Timer cases has five entries: its
keys are distinct whatever the name. -/
theorem dataz_literal (name : String) (v1 v2 v3 v4 v5 : F) :
    mapLiteral
        [ (name ++ ".count", v1), (name ++ ".one-minute", v2), (name ++ ".five-minute", v3),
          (name ++ ".fifteen-minute", v4), (name ++ ".mean", v5) ]
      = [ (name ++ ".count", v1), (name ++ ".one-minute", v2), (name ++ ".five-minute", v3),
          (name ++ ".fifteen-minute", v4), (name ++ ".mean", v5) ] := by
  have h12 : name ++ ".count" ≠ name ++ ".one-minute" := string_append_ne name (by decide)
  have h13 : name ++ ".count" ≠ name ++ ".five-minute" := string_append_ne name (by decide)
  have h14 : name ++ ".count" ≠ name ++ ".fifteen-minute" := string_append_ne name (by decide)
  have h15 : name ++ ".count" ≠ name ++ ".mean" := string_append_ne name (by decide)
  have h23 : name ++ ".one-minute" ≠ name ++ ".five-minute" := string_append_ne name (by decide)
  have h24 : name ++ ".one-minute" ≠ name ++ ".fifteen-minute" :=
    string_append_ne name (by decide)
  have h25 : name ++ ".one-minute" ≠ name ++ ".mean" := string_append_ne name (by decide)
  have h34 : name ++ ".five-minute" ≠ name ++ ".fifteen-minute" :=
    string_append_ne name (by decide)
  have h35 : name ++ ".five-minute" ≠ name ++ ".mean" := string_append_ne name (by decide)
  have h45 : name ++ ".fifteen-minute" ≠ name ++ ".mean" := string_append_ne name (by decide)
  simp only [mapLiteral, List.foldl_cons, List.foldl_nil, mapSet, if_neg h12, if_neg h13,
    if_neg h14, if_neg h15, if_neg h23, if_neg h24, if_neg h25, if_neg h34, if_neg h35,
    if_neg h45]

/-! ### The loops of `metricsData` -/

/-- The percentile loop appends one data point for each percentile, in order. -/
theorem percentileLoop_spec (rt : Runtime F) (cfg : Config F) (now : Time) (name : String)
    (percentile : F → F) (ps : List F) :
    ∀ s : Acc F, ∃ pts : List (MetricDatum F),
      (percentileLoop rt cfg now name percentile ps s).data = s.data ++ pts
        ∧ pts.map MetricDatum.view
            = ps.map (fun p => (name ++ "-perc" ++ rt.sprintf3f p, some (percentile p), none)) := by
  induction ps with
  | nil => exact fun s => ⟨[], by simp [percentileLoop], rfl⟩
  | cons p ps ih =>
    intro s
    obtain ⟨pts, h1, h2⟩ := ih
      { data := s.data ++ [{ aDatum rt cfg now s.ranges (name ++ "-perc" ++ rt.sprintf3f p) with
          Value := some (percentile p) }], ranges := s.ranges + 1 }
    refine ⟨{ aDatum rt cfg now s.ranges (name ++ "-perc" ++ rt.sprintf3f p) with
      Value := some (percentile p) } :: pts, ?_, ?_⟩
    · rw [percentileLoop]
      dsimp only
      rw [h1, List.append_assoc]
      rfl
    · rw [List.map_cons, List.map_cons, h2]
      rfl

/-- The loop over `dataz` appends one data point for each entry, in the order of
the iteration. -/
theorem datazLoop_spec (rt : Runtime F) (cfg : Config F) (now : Time) (l : List (String × F)) :
    ∀ s : Acc F, ∃ pts : List (MetricDatum F),
      (datazLoop rt cfg now l s).data = s.data ++ pts
        ∧ pts.map MetricDatum.view = l.map (fun kv => (kv.1, some kv.2, none)) := by
  induction l with
  | nil => exact fun s => ⟨[], by simp [datazLoop], rfl⟩
  | cons kv l ih =>
    intro s
    obtain ⟨n, v⟩ := kv
    obtain ⟨pts, h1, h2⟩ := ih
      { data := s.data ++ [{ aDatum rt cfg now s.ranges n with Value := some v }],
        ranges := s.ranges + 1 }
    refine ⟨{ aDatum rt cfg now s.ranges n with Value := some v } :: pts, ?_, ?_⟩
    · rw [datazLoop]
      dsimp only
      rw [h1, List.append_assoc]
      rfl
    · rw [List.map_cons, List.map_cons, h2]
      rfl

/-! ### The walk over the registry -/

theorem registryEach_append (rt : Runtime F) (cfg : Config F) (now : Time)
    (pre post : Registry F) :
    ∀ s : Acc F, registryEach rt cfg now (pre ++ post) s
      = ((registryEach rt cfg now post (registryEach rt cfg now pre s).1).1,
          (registryEach rt cfg now pre s).2
            ++ (registryEach rt cfg now post (registryEach rt cfg now pre s).1).2) := by
  induction pre with
  | nil => intro s; rfl
  | cons e pre ih =>
    intro s
    obtain ⟨name, i⟩ := e
    show registryEach rt cfg now ((name, i) :: (pre ++ post)) s = _
    simp only [registryEach, ih, List.cons_append]

theorem registryEach_length (rt : Runtime F) (cfg : Config F) (now : Time) (reg : Registry F) :
    ∀ s : Acc F, (registryEach rt cfg now reg s).2.length = reg.length := by
  induction reg with
  | nil => intro s; rfl
  | cons e reg ih =>
    intro s
    obtain ⟨name, i⟩ := e
    simp only [registryEach, List.length_cons, ih]

theorem metricsData_data (rt : Runtime F) (cfg : Config F) (now : Time) (reg : Registry F) :
    (metricsData rt cfg now reg).data = (accAfter rt cfg now reg).data := rfl

/-- Visiting one more entry: the data are those the callback leaves when it is
called with the variables as the earlier entries left them. -/
theorem metricsData_snoc_data (rt : Runtime F) (cfg : Config F) (now : Time)
    (pre : Registry F) (name : String) (i : Metric F) :
    (metricsData rt cfg now (pre ++ [(name, i)])).data
      = (visit rt cfg now name i (accAfter rt cfg now pre)).1.data := by
  unfold metricsData accAfter
  rw [registryEach_append]
  rfl

/-! ### The callback, case by case -/

theorem visit_rejected (rt : Runtime F) (cfg : Config F) (now : Time) (name : String)
    (i : Metric F) (s : Acc F) (hrej : cfg.Filter.ShouldReport name = false) :
    visit rt cfg now name i s = (s, i) := by
  unfold visit
  rw [hrej]
  rfl

theorem visit_counter (rt : Runtime F) (cfg : Config F) (now : Time) (name : String)
    (c : Int) (s : Acc F) (hpass : cfg.Filter.ShouldReport name = true) :
    visit rt cfg now name (Metric.Counter c) s
      = ({ data := if c > 0 then s.data ++ [{ aDatum rt cfg now s.ranges name with
              Unit := some StandardUnitCount, Value := some (rt.float64 c) }] else s.data,
           ranges := s.ranges + 1 },
          if cfg.ResetCountersOnReport then Metric.Counter 0 else Metric.Counter c) := by
  unfold visit
  rw [hpass]
  rfl

theorem visit_histogram (rt : Runtime F) (cfg : Config F) (now : Time) (name : String)
    (h : HistogramSnapshot F) (s : Acc F) (hpass : cfg.Filter.ShouldReport name = true) :
    visit rt cfg now name (Metric.Histogram h) s
      = if h.Count = 0 then (s, Metric.Histogram h)
        else (percentileLoop rt cfg now name h.Percentile (cfg.Filter.Percentiles name) s,
          Metric.Histogram h) := by
  unfold visit
  rw [hpass]
  rfl

theorem visit_meter (rt : Runtime F) (cfg : Config F) (now : Time) (name : String)
    (m : MeterSnapshot F) (s : Acc F) (hpass : cfg.Filter.ShouldReport name = true) :
    visit rt cfg now name (Metric.Meter m) s
      = (datazLoop rt cfg now
          (rangeMap rt s.ranges
            [ (name ++ ".count", rt.float64 m.Count), (name ++ ".one-minute", m.Rate1),
              (name ++ ".five-minute", m.Rate5), (name ++ ".fifteen-minute", m.Rate15),
              (name ++ ".mean", m.RateMean) ])
          { s with ranges := s.ranges + 1 }, Metric.Meter m) := by
  unfold visit
  rw [hpass]
  dsimp only
  rw [dataz_literal]
  rfl

theorem visit_timer (rt : Runtime F) (cfg : Config F) (now : Time) (name : String)
    (t : TimerSnapshot F) (s : Acc F) (hpass : cfg.Filter.ShouldReport name = true) :
    visit rt cfg now name (Metric.Timer t) s
      = if t.Count = 0 then (s, Metric.Timer t)
        else (percentileLoop rt cfg now name t.Percentile (cfg.Filter.Percentiles name)
          (datazLoop rt cfg now
            (rangeMap rt s.ranges
              [ (name ++ ".count", rt.float64 t.Count), (name ++ ".one-minute", t.Rate1),
                (name ++ ".five-minute", t.Rate5), (name ++ ".fifteen-minute", t.Rate15),
                (name ++ ".mean", t.RateMean) ])
            { s with ranges := s.ranges + 1 }), Metric.Timer t) := by
  unfold visit
  rw [hpass]
  dsimp only
  rw [dataz_literal]
  rfl

/-- The callback only appends to `data`. -/
theorem visit_data_extends (rt : Runtime F) (cfg : Config F) (now : Time) (name : String)
    (i : Metric F) (s : Acc F) :
    ∃ pts : List (MetricDatum F), (visit rt cfg now name i s).1.data = s.data ++ pts := by
  cases hf : cfg.Filter.ShouldReport name with
  | false => exact ⟨[], by rw [visit_rejected rt cfg now name i s hf]; simp⟩
  | true =>
    cases i with
    | Counter c =>
      rw [visit_counter rt cfg now name c s hf]
      by_cases hc : c > 0
      · exact ⟨_, by rw [if_pos hc]⟩
      · exact ⟨[], by rw [if_neg hc, List.append_nil]⟩
    | Gauge v => exact ⟨_, by unfold visit; rw [hf]; rfl⟩
    | GaugeFloat64 v => exact ⟨_, by unfold visit; rw [hf]; rfl⟩
    | Histogram h =>
      rw [visit_histogram rt cfg now name h s hf]
      by_cases hc : h.Count = 0
      · exact ⟨[], by simp only [if_pos hc, List.append_nil]⟩
      · obtain ⟨pts, h1, -⟩ := percentileLoop_spec rt cfg now name h.Percentile
          (cfg.Filter.Percentiles name) s
        exact ⟨pts, by simp only [if_neg hc, h1]⟩
    | Meter m =>
      rw [visit_meter rt cfg now name m s hf]
      obtain ⟨pts, h1, -⟩ := datazLoop_spec rt cfg now
        (rangeMap rt s.ranges
          [ (name ++ ".count", rt.float64 m.Count), (name ++ ".one-minute", m.Rate1),
            (name ++ ".five-minute", m.Rate5), (name ++ ".fifteen-minute", m.Rate15),
            (name ++ ".mean", m.RateMean) ]) { s with ranges := s.ranges + 1 }
      exact ⟨pts, h1⟩
    | Timer t =>
      rw [visit_timer rt cfg now name t s hf]
      by_cases hc : t.Count = 0
      · exact ⟨[], by simp only [if_pos hc, List.append_nil]⟩
      · obtain ⟨pts, h1, -⟩ := datazLoop_spec rt cfg now
          (rangeMap rt s.ranges
            [ (name ++ ".count", rt.float64 t.Count), (name ++ ".one-minute", t.Rate1),
              (name ++ ".five-minute", t.Rate5), (name ++ ".fifteen-minute", t.Rate15),
              (name ++ ".mean", t.RateMean) ]) { s with ranges := s.ranges + 1 }
        obtain ⟨qts, h2, -⟩ := percentileLoop_spec rt cfg now name t.Percentile
          (cfg.Filter.Percentiles name) (datazLoop rt cfg now
          (rangeMap rt s.ranges
            [ (name ++ ".count", rt.float64 t.Count), (name ++ ".one-minute", t.Rate1),
              (name ++ ".five-minute", t.Rate5), (name ++ ".fifteen-minute", t.Rate15),
              (name ++ ".mean", t.RateMean) ]) { s with ranges := s.ranges + 1 })
        exact ⟨pts ++ qts, by simp only [if_neg hc, h2, h1, List.append_assoc]⟩
    | Other => exact ⟨[], by unfold visit; rw [hf]; simp⟩

/-- The walk over the registry only appends to `data`. -/
theorem registryEach_data_extends (rt : Runtime F) (cfg : Config F) (now : Time)
    (reg : Registry F) :
    ∀ s : Acc F, ∃ pts : List (MetricDatum F),
      (registryEach rt cfg now reg s).1.data = s.data ++ pts := by
  induction reg with
  | nil => exact fun s => ⟨[], by simp [registryEach]⟩
  | cons e reg ih =>
    intro s
    obtain ⟨name, i⟩ := e
    obtain ⟨pts, h1⟩ := visit_data_extends rt cfg now name i s
    obtain ⟨qts, h2⟩ := ih (visit rt cfg now name i s).1
    exact ⟨pts ++ qts, by simp only [registryEach, h2, h1, List.append_assoc]⟩

/-- The call on a registry with the entry `(name, i)` after the entries `pre`:
the callback is called on it with the variables as `pre` left them, and the
entries after it are visited next. -/
theorem metricsData_insert (rt : Runtime F) (cfg : Config F) (now : Time)
    (pre post : Registry F) (name : String) (i : Metric F) :
    (metricsData rt cfg now (pre ++ (name, i) :: post)).data
        = (registryEach rt cfg now post
            (visit rt cfg now name i (accAfter rt cfg now pre)).1).1.data
      ∧ (metricsData rt cfg now (pre ++ (name, i) :: post)).registry
        = (metricsData rt cfg now pre).registry
            ++ (name, (visit rt cfg now name i (accAfter rt cfg now pre)).2)
              :: (registryEach rt cfg now post
                  (visit rt cfg now name i (accAfter rt cfg now pre)).1).2 := by
  unfold metricsData accAfter
  rw [registryEach_append]
  exact ⟨rfl, rfl⟩

theorem metricsData_registry_length (rt : Runtime F) (cfg : Config F) (now : Time)
    (reg : Registry F) : (metricsData rt cfg now reg).registry.length = reg.length :=
  registryEach_length rt cfg now reg _

/-- The entry at the position of `(name, i)` after the call is the metric as the
callback left it. -/
theorem metricsData_registry_at (rt : Runtime F) (cfg : Config F) (now : Time)
    (pre post : Registry F) (name : String) (i : Metric F) :
    (metricsData rt cfg now (pre ++ (name, i) :: post)).registry[pre.length]?
      = some (name, (visit rt cfg now name i (accAfter rt cfg now pre)).2) := by
  rw [(metricsData_insert rt cfg now pre post name i).2,
    List.getElem?_append_right (by rw [metricsData_registry_length]),
    metricsData_registry_length, Nat.sub_self, List.getElem?_cons_zero]

/-! ### Names -/

theorem perc_ne_of_dot (x suffix : String) (h : suffix.data.head? = some '.') :
    "-perc" ++ x ≠ suffix := by
  intro e
  have hd := congrArg (fun t : String => t.data.head?) e
  simp only [String.data_append] at hd
  rw [h] at hd
  have h2 : ("-perc".data ++ x.data).head? = some '-' := rfl
  rw [h2] at hd
  exact absurd hd (by decide)

theorem rate_names_nodup (name : String) :
    (List.map (fun suffix => name ++ suffix)
      [".count", ".one-minute", ".five-minute", ".fifteen-minute", ".mean"]).Nodup :=
  List.Nodup.map (fun a b h => string_append_cancel name a b h) (by decide)

/-- The five data points of the rates: what the loop over `dataz` appends for
the five entries of the map, in the order of the `k`-th iteration over a map. -/
theorem rate_points (rt : Runtime F) (cfg : Config F) (now : Time) (name : String)
    (v1 v2 v3 v4 v5 : F) (k : Nat) (s : Acc F) :
    ∃ pts : List (MetricDatum F),
      (datazLoop rt cfg now
          (rangeMap rt k
            [ (name ++ ".count", v1), (name ++ ".one-minute", v2), (name ++ ".five-minute", v3),
              (name ++ ".fifteen-minute", v4), (name ++ ".mean", v5) ]) s).data = s.data ++ pts
        ∧ pts.length = 5
        ∧ (pts.map MetricDatum.view).Perm
            [ (name ++ ".count", some v1, none), (name ++ ".one-minute", some v2, none),
              (name ++ ".five-minute", some v3, none), (name ++ ".fifteen-minute", some v4, none),
              (name ++ ".mean", some v5, none) ]
        ∧ (pts.map (fun d => d.MetricName)).Perm
            (List.map (fun suffix => name ++ suffix)
              [".count", ".one-minute", ".five-minute", ".fifteen-minute", ".mean"]) := by
  obtain ⟨pts, h1, h2⟩ := datazLoop_spec rt cfg now
    (rangeMap rt k
      [ (name ++ ".count", v1), (name ++ ".one-minute", v2), (name ++ ".five-minute", v3),
        (name ++ ".fifteen-minute", v4), (name ++ ".mean", v5) ]) s
  have hperm := (rangeMap_perm rt k
    [ (name ++ ".count", v1), (name ++ ".one-minute", v2), (name ++ ".five-minute", v3),
      (name ++ ".fifteen-minute", v4), (name ++ ".mean", v5) ]).map
    (fun kv : String × F => ((kv.1, some kv.2, none) : String × Option F × Option String))
  rw [← h2] at hperm
  have hnames := hperm.map (fun v : String × Option F × Option String => v.1)
  rw [List.map_map] at hnames
  refine ⟨pts, h1, ?_, hperm, hnames⟩
  have hlen := hperm.length_eq
  rw [List.length_map] at hlen
  exact hlen

/-! ### The claims on `metricsData` -/

/-- C4: a Counter that passes the filter with count `c > 0`, when
`ResetCountersOnReport` is set: the call emits a data point for it, after the
points of the entries before it, whose value is `float64(c)`, the count before
the reset, and the counter is left with count 0. -/
theorem counter_reported_then_cleared (rt : Runtime F) (cfg : Config F) (now : Time)
    (pre post : Registry F) (name : String) (c : Int)
    (hpass : cfg.Filter.ShouldReport name = true) (hc : 0 < c)
    (hreset : cfg.ResetCountersOnReport = true) :
    ∃ (d : MetricDatum F) (tail : List (MetricDatum F)),
      (metricsData rt cfg now (pre ++ (name, Metric.Counter c) :: post)).data
          = (metricsData rt cfg now pre).data ++ d :: tail
        ∧ d.view = (name, some (rt.float64 c), some StandardUnitCount)
        ∧ (metricsData rt cfg now (pre ++ (name, Metric.Counter c) :: post)).registry[pre.length]?
          = some (name, Metric.Counter 0) := by
  obtain ⟨tail, ht⟩ := registryEach_data_extends rt cfg now post
    (visit rt cfg now name (Metric.Counter c) (accAfter rt cfg now pre)).1
  refine ⟨{ aDatum rt cfg now (accAfter rt cfg now pre).ranges name with
      Unit := some StandardUnitCount, Value := some (rt.float64 c) }, tail, ?_, rfl, ?_⟩
  · rw [(metricsData_insert rt cfg now pre post name (Metric.Counter c)).1, ht,
      visit_counter rt cfg now name c _ hpass]
    dsimp only
    rw [if_pos hc, List.append_assoc]
    rfl
  · rw [metricsData_registry_at, visit_counter rt cfg now name c _ hpass]
    dsimp only
    rw [hreset, if_pos rfl]

/-- The scenario of the counter `"req.count"` at 5: the point carries 5 and the
counter is left at 0. -/
theorem counter_reported_then_cleared_witness :
    Example.cfg.Filter.ShouldReport "req.count" = true
      ∧ (0 : Int) < 5
      ∧ Example.cfg.ResetCountersOnReport = true
      ∧ (∃ (d : MetricDatum Example.Fixed3) (tail : List (MetricDatum Example.Fixed3)),
          (metricsData Example.runtime Example.cfg 7 Example.scenario).data
              = (metricsData Example.runtime Example.cfg 7 []).data ++ d :: tail
            ∧ d.view = ("req.count", some (Example.runtime.float64 5), some StandardUnitCount)
            ∧ (metricsData Example.runtime Example.cfg 7 Example.scenario).registry[0]?
              = some ("req.count", Metric.Counter 0))
      ∧ (metricsData Example.runtime Example.cfg 7 Example.scenario).data.map MetricDatum.view
          = [ ("req.count", some { milli := 5000 }, some "Count"),
              ("mem.used", some { milli := 120000 }, some "Count") ] :=
  ⟨by decide, by decide, by decide,
    counter_reported_then_cleared Example.runtime Example.cfg 7 []
      [("mem.used", Metric.Gauge 120)] "req.count" 5 (by decide) (by decide) (by decide),
    by decide⟩

/-- C5, as amended: a Counter whose name the filter accepts produces one data
point, named its name, with unit Count and value `float64` of its count, when
its count is greater than 0, and no data point otherwise; a Counter whose name
the filter rejects produces none, whatever its count; on a registry that holds
only a Counter with count 0, `metricsData` returns no data point. -/
theorem counter_point_iff_positive (rt : Runtime F) (cfg : Config F) (now : Time)
    (pre : Registry F) (name : String) (c : Int) :
    (cfg.Filter.ShouldReport name = true →
      ∃ d : MetricDatum F,
        d.view = (name, some (rt.float64 c), some StandardUnitCount)
          ∧ (metricsData rt cfg now (pre ++ [(name, Metric.Counter c)])).data
            = (metricsData rt cfg now pre).data ++ (if 0 < c then [d] else []))
      ∧ (cfg.Filter.ShouldReport name = false →
        (metricsData rt cfg now (pre ++ [(name, Metric.Counter c)])).data
          = (metricsData rt cfg now pre).data)
      ∧ (metricsData rt cfg now [(name, Metric.Counter 0)]).data = [] := by
  refine ⟨?_, ?_, ?_⟩
  · intro hpass
    refine ⟨{ aDatum rt cfg now (accAfter rt cfg now pre).ranges name with
        Unit := some StandardUnitCount, Value := some (rt.float64 c) }, rfl, ?_⟩
    rw [metricsData_snoc_data, visit_counter rt cfg now name c _ hpass]
    dsimp only
    by_cases hc : 0 < c
    · rw [if_pos hc, if_pos hc]; rfl
    · rw [if_neg hc, if_neg hc, List.append_nil]; rfl
  · intro hrej
    rw [metricsData_snoc_data, visit_rejected rt cfg now name _ _ hrej]
    rfl
  · have hsnoc := metricsData_snoc_data rt cfg now [] name (Metric.Counter 0)
    rw [List.nil_append] at hsnoc
    rw [hsnoc]
    cases hf : cfg.Filter.ShouldReport name with
    | false =>
      rw [visit_rejected rt cfg now name _ _ hf]
      rfl
    | true =>
      rw [visit_counter rt cfg now name 0 _ hf]
      rfl

/-- Counters at 5, at -3 and at 0 under an accepted name, and at 9 under the
rejected one. -/
theorem counter_point_iff_positive_witness :
    Example.cfg.Filter.ShouldReport "req.count" = true
      ∧ Example.cfg.Filter.ShouldReport "unreported" = false
      ∧ (∃ d : MetricDatum Example.Fixed3,
          d.view = ("req.count", some (Example.runtime.float64 5), some StandardUnitCount)
            ∧ (metricsData Example.runtime Example.cfg 7
                [("mem.used", Metric.Gauge 120), ("req.count", Metric.Counter 5)]).data
              = (metricsData Example.runtime Example.cfg 7 [("mem.used", Metric.Gauge 120)]).data
                ++ (if (0 : Int) < 5 then [d] else []))
      ∧ (∃ d : MetricDatum Example.Fixed3,
          d.view = ("req.count", some (Example.runtime.float64 (-3)), some StandardUnitCount)
            ∧ (metricsData Example.runtime Example.cfg 7
                [("mem.used", Metric.Gauge 120), ("req.count", Metric.Counter (-3))]).data
              = (metricsData Example.runtime Example.cfg 7 [("mem.used", Metric.Gauge 120)]).data
                ++ (if (0 : Int) < -3 then [d] else []))
      ∧ (metricsData Example.runtime Example.cfg 7
            [("mem.used", Metric.Gauge 120), ("unreported", Metric.Counter 9)]).data
          = (metricsData Example.runtime Example.cfg 7 [("mem.used", Metric.Gauge 120)]).data
      ∧ (metricsData Example.runtime Example.cfg 7 [("req.count", Metric.Counter 0)]).data = [] :=
  ⟨by decide, by decide,
    (counter_point_iff_positive Example.runtime Example.cfg 7 [("mem.used", Metric.Gauge 120)]
      "req.count" 5).1 (by decide),
    (counter_point_iff_positive Example.runtime Example.cfg 7 [("mem.used", Metric.Gauge 120)]
      "req.count" (-3)).1 (by decide),
    (counter_point_iff_positive Example.runtime Example.cfg 7 [("mem.used", Metric.Gauge 120)]
      "unreported" 9).2.1 (by decide),
    (counter_point_iff_positive Example.runtime Example.cfg 7 [] "req.count" 0).2.2⟩

/-- C5, as stated, fails: the Counter `"unreported"` has count 5, greater than
0, and `metricsData` returns no data point for it, since the filter rejects its
name. -/
theorem counter_rejected_no_point :
    Example.cfg.Filter.ShouldReport "unreported" = false
      ∧ (0 : Int) < 5
      ∧ (metricsData Example.runtime Example.cfg 7 [("unreported", Metric.Counter 5)]).data = []
      ∧ ¬ ((0 : Int) < 5 ↔
          (metricsData Example.runtime Example.cfg 7
            [("unreported", Metric.Counter 5)]).data.length = 1) := by
  decide

/-- C6: an entry whose name the filter rejects, of whatever kind: the data
`metricsData` returns are those it returns without the entry, and the entry is
in the registry after the call as it was before it. -/
theorem rejected_entry_skipped (rt : Runtime F) (cfg : Config F) (now : Time)
    (pre post : Registry F) (name : String) (i : Metric F)
    (hrej : cfg.Filter.ShouldReport name = false) :
    (metricsData rt cfg now (pre ++ (name, i) :: post)).data
        = (metricsData rt cfg now (pre ++ post)).data
      ∧ (metricsData rt cfg now (pre ++ [(name, i)])).data = (metricsData rt cfg now pre).data
      ∧ (metricsData rt cfg now (pre ++ (name, i) :: post)).registry[pre.length]?
        = some (name, i) := by
  refine ⟨?_, ?_, ?_⟩
  · rw [(metricsData_insert rt cfg now pre post name i).1, visit_rejected rt cfg now name i _ hrej]
    unfold metricsData accAfter
    rw [registryEach_append]
  · rw [metricsData_snoc_data, visit_rejected rt cfg now name i _ hrej]
    rfl
  · rw [metricsData_registry_at, visit_rejected rt cfg now name i _ hrej]

/-- A counter under the rejected name, with the reset enabled: it is left at 5. -/
theorem rejected_entry_skipped_witness :
    Example.cfg.Filter.ShouldReport "unreported" = false
      ∧ Example.cfg.ResetCountersOnReport = true
      ∧ (metricsData Example.runtime Example.cfg 7
            [("mem.used", Metric.Gauge 120), ("unreported", Metric.Counter 5),
              ("req.count", Metric.Counter 5)]).data
          = (metricsData Example.runtime Example.cfg 7
              [("mem.used", Metric.Gauge 120), ("req.count", Metric.Counter 5)]).data
      ∧ (metricsData Example.runtime Example.cfg 7
            [("mem.used", Metric.Gauge 120), ("unreported", Metric.Counter 5)]).data
          = (metricsData Example.runtime Example.cfg 7 [("mem.used", Metric.Gauge 120)]).data
      ∧ (metricsData Example.runtime Example.cfg 7
            [("mem.used", Metric.Gauge 120), ("unreported", Metric.Counter 5),
              ("req.count", Metric.Counter 5)]).registry[1]?
          = some ("unreported", Metric.Counter 5) :=
  ⟨by decide, by decide,
    rejected_entry_skipped Example.runtime Example.cfg 7 [("mem.used", Metric.Gauge 120)]
      [("req.count", Metric.Counter 5)] "unreported" (Metric.Counter 5) (by decide)⟩

/-- C7: a Timer that passes the filter with a snapshot count greater than 0:
the call appends `5 + n` data points for it, `n` the number of percentiles of
the name.  The first five are, in the order of the iteration over the map,
the points named `name` followed by `.count`, `.one-minute`, `.five-minute`,
`.fifteen-minute` and `.mean`, with the count and the four rates; each of
these names occurs once among the `5 + n`.  The others are one point for each
percentile `p`, in order, named `name-perc` followed by `p` with 3 decimals,
with value `Percentile(p)`. -/
theorem timer_points (rt : Runtime F) (cfg : Config F) (now : Time) (pre : Registry F)
    (name : String) (t : TimerSnapshot F)
    (hpass : cfg.Filter.ShouldReport name = true) (hcount : 0 < t.Count) :
    ∃ rates percs : List (MetricDatum F),
      (metricsData rt cfg now (pre ++ [(name, Metric.Timer t)])).data
          = (metricsData rt cfg now pre).data ++ (rates ++ percs)
        ∧ (rates ++ percs).length = 5 + (cfg.Filter.Percentiles name).length
        ∧ (rates.map MetricDatum.view).Perm
            [ (name ++ ".count", some (rt.float64 t.Count), none),
              (name ++ ".one-minute", some t.Rate1, none),
              (name ++ ".five-minute", some t.Rate5, none),
              (name ++ ".fifteen-minute", some t.Rate15, none),
              (name ++ ".mean", some t.RateMean, none) ]
        ∧ percs.map MetricDatum.view
            = (cfg.Filter.Percentiles name).map
                (fun p => (name ++ "-perc" ++ rt.sprintf3f p, some (t.Percentile p), none))
        ∧ ∀ suffix ∈ [".count", ".one-minute", ".five-minute", ".fifteen-minute", ".mean"],
            ((rates ++ percs).map (fun d => d.MetricName)).count (name ++ suffix) = 1 := by
  have hne : ¬ t.Count = 0 := by omega
  obtain ⟨rates, h1, h2, h3, h4⟩ := rate_points rt cfg now name (rt.float64 t.Count) t.Rate1
    t.Rate5 t.Rate15 t.RateMean (accAfter rt cfg now pre).ranges
    { accAfter rt cfg now pre with ranges := (accAfter rt cfg now pre).ranges + 1 }
  obtain ⟨percs, h5, h6⟩ := percentileLoop_spec rt cfg now name t.Percentile
    (cfg.Filter.Percentiles name)
    (datazLoop rt cfg now
      (rangeMap rt (accAfter rt cfg now pre).ranges
        [ (name ++ ".count", rt.float64 t.Count), (name ++ ".one-minute", t.Rate1),
          (name ++ ".five-minute", t.Rate5), (name ++ ".fifteen-minute", t.Rate15),
          (name ++ ".mean", t.RateMean) ])
      { accAfter rt cfg now pre with ranges := (accAfter rt cfg now pre).ranges + 1 })
  have hplen : percs.length = (cfg.Filter.Percentiles name).length := by
    have := congrArg List.length h6
    rwa [List.length_map, List.length_map] at this
  refine ⟨rates, percs, ?_, ?_, h3, h6, ?_⟩
  · rw [metricsData_snoc_data, visit_timer rt cfg now name t _ hpass, if_neg hne]
    dsimp only
    rw [h5, h1, List.append_assoc]
    rfl
  · rw [List.length_append, h2, hplen]
  · intro suffix hs
    rw [List.map_append, List.count_append, h4.count_eq]
    have hmem : name ++ suffix ∈ List.map (fun suffix => name ++ suffix)
        [".count", ".one-minute", ".five-minute", ".fifteen-minute", ".mean"] :=
      List.mem_map_of_mem _ hs
    rw [List.count_eq_one_of_mem (rate_names_nodup name) hmem]
    have hnot : name ++ suffix ∉ percs.map (fun d => d.MetricName) := by
      have hfst : percs.map (fun d => d.MetricName)
          = (cfg.Filter.Percentiles name).map (fun p => name ++ "-perc" ++ rt.sprintf3f p) := by
        have := congrArg (List.map (fun v : String × Option F × Option String => v.1)) h6
        rw [List.map_map, List.map_map] at this
        exact this
      rw [hfst]
      intro hin
      obtain ⟨p, -, hp⟩ := List.mem_map.1 hin
      rw [String.append_assoc] at hp
      have hdot : suffix.data.head? = some '.' := by
        simp only [List.mem_cons, List.mem_singleton, List.not_mem_nil, or_false] at hs
        rcases hs with rfl | rfl | rfl | rfl | rfl <;> rfl
      exact perc_ne_of_dot (rt.sprintf3f p) suffix hdot (string_append_cancel name _ _ hp)
    rw [List.count_eq_zero_of_not_mem hnot]

/-- The scenario of the timer `"latency"`: its 7 data points. -/
theorem timer_points_witness :
    Example.cfg.Filter.ShouldReport "latency" = true
      ∧ 0 < Example.latency.Count
      ∧ (∃ rates percs : List (MetricDatum Example.Fixed3),
          (metricsData Example.runtime Example.cfg 7 [("latency", Metric.Timer Example.latency)]).data
              = (metricsData Example.runtime Example.cfg 7 []).data ++ (rates ++ percs)
            ∧ (rates ++ percs).length = 5 + (Example.cfg.Filter.Percentiles "latency").length
            ∧ (rates.map MetricDatum.view).Perm
                [ ("latency" ++ ".count", some (Example.runtime.float64 Example.latency.Count), none),
                  ("latency" ++ ".one-minute", some Example.latency.Rate1, none),
                  ("latency" ++ ".five-minute", some Example.latency.Rate5, none),
                  ("latency" ++ ".fifteen-minute", some Example.latency.Rate15, none),
                  ("latency" ++ ".mean", some Example.latency.RateMean, none) ]
            ∧ percs.map MetricDatum.view
                = (Example.cfg.Filter.Percentiles "latency").map
                    (fun p => ("latency" ++ "-perc" ++ Example.runtime.sprintf3f p,
                      some (Example.latency.Percentile p), none))
            ∧ ∀ suffix ∈ [".count", ".one-minute", ".five-minute", ".fifteen-minute", ".mean"],
                ((rates ++ percs).map (fun d => d.MetricName)).count ("latency" ++ suffix) = 1)
      ∧ (metricsData Example.runtime Example.cfg 7
            [("latency", Metric.Timer Example.latency)]).data.map MetricDatum.view
          = [ ("latency.count", some { milli := 10000 }, none),
              ("latency.one-minute", some { milli := 1000 }, none),
              ("latency.five-minute", some { milli := 800 }, none),
              ("latency.fifteen-minute", some { milli := 500 }, none),
              ("latency.mean", some { milli := 900 }, none),
              ("latency-perc0.500", some { milli := 12000 }, none),
              ("latency-perc0.990", some { milli := 50000 }, none) ] :=
  ⟨by decide, by decide,
    timer_points Example.runtime Example.cfg 7 [] "latency" Example.latency (by decide)
      (by decide),
    by decide⟩

/-- C8: a Meter that passes the filter, whatever its count and its name: the
call appends five data points for it, which are, in the order of the iteration
over the map, the points named `name` followed by `.count`, `.one-minute`,
`.five-minute`, `.fifteen-minute` and `.mean`, with the count and the four
rates of the snapshot; each of the five names occurs once. -/
theorem meter_points (rt : Runtime F) (cfg : Config F) (now : Time) (pre : Registry F)
    (name : String) (m : MeterSnapshot F) (hpass : cfg.Filter.ShouldReport name = true) :
    ∃ pts : List (MetricDatum F),
      (metricsData rt cfg now (pre ++ [(name, Metric.Meter m)])).data
          = (metricsData rt cfg now pre).data ++ pts
        ∧ pts.length = 5
        ∧ (pts.map MetricDatum.view).Perm
            [ (name ++ ".count", some (rt.float64 m.Count), none),
              (name ++ ".one-minute", some m.Rate1, none),
              (name ++ ".five-minute", some m.Rate5, none),
              (name ++ ".fifteen-minute", some m.Rate15, none),
              (name ++ ".mean", some m.RateMean, none) ]
        ∧ ∀ suffix ∈ [".count", ".one-minute", ".five-minute", ".fifteen-minute", ".mean"],
            (pts.map (fun d => d.MetricName)).count (name ++ suffix) = 1 := by
  obtain ⟨pts, h1, h2, h3, h4⟩ := rate_points rt cfg now name (rt.float64 m.Count) m.Rate1
    m.Rate5 m.Rate15 m.RateMean (accAfter rt cfg now pre).ranges
    { accAfter rt cfg now pre with ranges := (accAfter rt cfg now pre).ranges + 1 }
  refine ⟨pts, ?_, h2, h3, ?_⟩
  · rw [metricsData_snoc_data, visit_meter rt cfg now name m _ hpass]
    dsimp only
    rw [h1]
    rfl
  · intro suffix hs
    rw [h4.count_eq]
    exact List.count_eq_one_of_mem (rate_names_nodup name) (List.mem_map_of_mem _ hs)

/-- A meter with count 0 visited third: its five points, in the order of that
iteration. -/
theorem meter_points_witness :
    Example.cfg.Filter.ShouldReport "events" = true
      ∧ (∃ pts : List (MetricDatum Example.Fixed3),
          (metricsData Example.runtime Example.cfg 7
              (Example.scenario ++ [("events", Metric.Meter Example.idle)])).data
              = (metricsData Example.runtime Example.cfg 7 Example.scenario).data ++ pts
            ∧ pts.length = 5
            ∧ (pts.map MetricDatum.view).Perm
                [ ("events" ++ ".count", some (Example.runtime.float64 Example.idle.Count), none),
                  ("events" ++ ".one-minute", some Example.idle.Rate1, none),
                  ("events" ++ ".five-minute", some Example.idle.Rate5, none),
                  ("events" ++ ".fifteen-minute", some Example.idle.Rate15, none),
                  ("events" ++ ".mean", some Example.idle.RateMean, none) ]
            ∧ ∀ suffix ∈ [".count", ".one-minute", ".five-minute", ".fifteen-minute", ".mean"],
                (pts.map (fun d => d.MetricName)).count ("events" ++ suffix) = 1)
      ∧ (metricsData Example.runtime Example.cfg 7
            (Example.scenario ++ [("events", Metric.Meter Example.idle)])).data.map
              (fun d => d.MetricName)
          = [ "req.count", "mem.used", "events.five-minute", "events.fifteen-minute",
              "events.mean", "events.count", "events.one-minute" ] :=
  ⟨by decide,
    meter_points Example.runtime Example.cfg 7 Example.scenario "events" Example.idle
      (by decide),
    by decide⟩

/-- C9: a Histogram that passes the filter with a snapshot count greater than
0: the call appends for it one data point for each percentile of the name, in
the order of the percentiles, named `name-perc` followed by the percentile with
3 decimals, with value `Percentile(p)` and no unit, and nothing else. -/
theorem histogram_points (rt : Runtime F) (cfg : Config F) (now : Time) (pre : Registry F)
    (name : String) (h : HistogramSnapshot F)
    (hpass : cfg.Filter.ShouldReport name = true) (hcount : 0 < h.Count) :
    ∃ pts : List (MetricDatum F),
      (metricsData rt cfg now (pre ++ [(name, Metric.Histogram h)])).data
          = (metricsData rt cfg now pre).data ++ pts
        ∧ pts.map MetricDatum.view
            = (cfg.Filter.Percentiles name).map
                (fun p => (name ++ "-perc" ++ rt.sprintf3f p, some (h.Percentile p), none)) := by
  have hne : ¬ h.Count = 0 := by omega
  obtain ⟨pts, h1, h2⟩ := percentileLoop_spec rt cfg now name h.Percentile
    (cfg.Filter.Percentiles name) (accAfter rt cfg now pre)
  refine ⟨pts, ?_, h2⟩
  rw [metricsData_snoc_data, visit_histogram rt cfg now name h _ hpass, if_neg hne]
  dsimp only
  rw [h1]
  rfl

/-- A histogram of 4 values: its two percentile points and nothing else. -/
theorem histogram_points_witness :
    Example.cfg.Filter.ShouldReport "sizes" = true
      ∧ 0 < Example.sizes.Count
      ∧ (∃ pts : List (MetricDatum Example.Fixed3),
          (metricsData Example.runtime Example.cfg 7
              (Example.scenario ++ [("sizes", Metric.Histogram Example.sizes)])).data
              = (metricsData Example.runtime Example.cfg 7 Example.scenario).data ++ pts
            ∧ pts.map MetricDatum.view
                = (Example.cfg.Filter.Percentiles "sizes").map
                    (fun p => ("sizes" ++ "-perc" ++ Example.runtime.sprintf3f p,
                      some (Example.sizes.Percentile p), none)))
      ∧ (metricsData Example.runtime Example.cfg 7
            (Example.scenario ++ [("sizes", Metric.Histogram Example.sizes)])).data.map
              MetricDatum.view
          = [ ("req.count", some { milli := 5000 }, some "Count"),
              ("mem.used", some { milli := 120000 }, some "Count"),
              ("sizes-perc0.500", some { milli := 12000 }, none),
              ("sizes-perc0.990", some { milli := 50000 }, none) ] :=
  ⟨by decide, by decide,
    histogram_points Example.runtime Example.cfg 7 Example.scenario "sizes" Example.sizes
      (by decide) (by decide),
    by decide⟩

/-- C10: a Histogram or a Timer whose snapshot count is 0: the call appends no
data point for it, whatever the filter and the percentiles. -/
theorem empty_snapshot_no_points (rt : Runtime F) (cfg : Config F) (now : Time)
    (pre : Registry F) (name : String) (h : HistogramSnapshot F) (t : TimerSnapshot F) :
    (h.Count = 0 →
      (metricsData rt cfg now (pre ++ [(name, Metric.Histogram h)])).data
        = (metricsData rt cfg now pre).data)
      ∧ (t.Count = 0 →
        (metricsData rt cfg now (pre ++ [(name, Metric.Timer t)])).data
          = (metricsData rt cfg now pre).data) := by
  constructor
  · intro h0
    rw [metricsData_snoc_data]
    cases hf : cfg.Filter.ShouldReport name with
    | false => rw [visit_rejected rt cfg now name _ _ hf]; rfl
    | true => rw [visit_histogram rt cfg now name h _ hf, if_pos h0]; rfl
  · intro t0
    rw [metricsData_snoc_data]
    cases hf : cfg.Filter.ShouldReport name with
    | false => rw [visit_rejected rt cfg now name _ _ hf]; rfl
    | true => rw [visit_timer rt cfg now name t _ hf, if_pos t0]; rfl

/-- A histogram and a timer with count 0, visited last. -/
theorem empty_snapshot_no_points_witness :
    Example.cold.Count = 0
      ∧ Example.unused.Count = 0
      ∧ (metricsData Example.runtime Example.cfg 7
            (Example.scenario ++ [("sizes", Metric.Histogram Example.cold)])).data
          = (metricsData Example.runtime Example.cfg 7 Example.scenario).data
      ∧ (metricsData Example.runtime Example.cfg 7
            (Example.scenario ++ [("sizes", Metric.Timer Example.unused)])).data
          = (metricsData Example.runtime Example.cfg 7 Example.scenario).data :=
  ⟨by decide, by decide,
    (empty_snapshot_no_points Example.runtime Example.cfg 7 Example.scenario "sizes"
      Example.cold Example.unused).1 (by decide),
    (empty_snapshot_no_points Example.runtime Example.cfg 7 Example.scenario "sizes"
      Example.cold Example.unused).2 (by decide)⟩

/-! ### Gauges -/

theorem visit_gauge (rt : Runtime F) (cfg : Config F) (now : Time) (name : String)
    (v : Int) (s : Acc F) (hpass : cfg.Filter.ShouldReport name = true) :
    visit rt cfg now name (Metric.Gauge v) s
      = ({ data := s.data ++ [{ aDatum rt cfg now s.ranges name with
              Unit := some StandardUnitCount, Value := some (rt.float64 v) }],
           ranges := s.ranges + 1 }, Metric.Gauge v) := by
  unfold visit
  rw [hpass]
  rfl

theorem visit_gaugeFloat64 (rt : Runtime F) (cfg : Config F) (now : Time) (name : String)
    (v : F) (s : Acc F) (hpass : cfg.Filter.ShouldReport name = true) :
    visit rt cfg now name (Metric.GaugeFloat64 v) s
      = ({ data := s.data ++ [{ aDatum rt cfg now s.ranges name with
              Unit := some StandardUnitCount, Value := some v }],
           ranges := s.ranges + 1 }, Metric.GaugeFloat64 v) := by
  unfold visit
  rw [hpass]
  rfl

theorem visit_other (rt : Runtime F) (cfg : Config F) (now : Time) (name : String)
    (s : Acc F) : visit rt cfg now name Metric.Other s = (s, Metric.Other) := by
  unfold visit
  cases cfg.Filter.ShouldReport name <;> rfl

/-- C11: a Gauge or a GaugeFloat64 that passes the filter: the call appends one
data point for it, named its name, with unit Count and value its reading
(`float64` of it for a Gauge), whatever the reading, zero and negative ones
included. -/
theorem gauge_point (rt : Runtime F) (cfg : Config F) (now : Time) (pre : Registry F)
    (name : String) (hpass : cfg.Filter.ShouldReport name = true) (v : Int) (x : F) :
    (∃ d : MetricDatum F,
        d.view = (name, some (rt.float64 v), some StandardUnitCount)
          ∧ (metricsData rt cfg now (pre ++ [(name, Metric.Gauge v)])).data
            = (metricsData rt cfg now pre).data ++ [d])
      ∧ ∃ d : MetricDatum F,
        d.view = (name, some x, some StandardUnitCount)
          ∧ (metricsData rt cfg now (pre ++ [(name, Metric.GaugeFloat64 x)])).data
            = (metricsData rt cfg now pre).data ++ [d] := by
  constructor
  · refine ⟨{ aDatum rt cfg now (accAfter rt cfg now pre).ranges name with
        Unit := some StandardUnitCount, Value := some (rt.float64 v) }, rfl, ?_⟩
    rw [metricsData_snoc_data, visit_gauge rt cfg now name v _ hpass]
    rfl
  · refine ⟨{ aDatum rt cfg now (accAfter rt cfg now pre).ranges name with
        Unit := some StandardUnitCount, Value := some x }, rfl, ?_⟩
    rw [metricsData_snoc_data, visit_gaugeFloat64 rt cfg now name x _ hpass]
    rfl

/-- Gauges reading 0 and -7, visited after the counter and the gauge of the
scenario. -/
theorem gauge_point_witness :
    Example.cfg.Filter.ShouldReport "queue.depth" = true
      ∧ (∃ d : MetricDatum Example.Fixed3,
          d.view = ("queue.depth", some (Example.runtime.float64 (-7)), some StandardUnitCount)
            ∧ (metricsData Example.runtime Example.cfg 7
                (Example.scenario ++ [("queue.depth", Metric.Gauge (-7))])).data
              = (metricsData Example.runtime Example.cfg 7 Example.scenario).data ++ [d])
      ∧ (∃ d : MetricDatum Example.Fixed3,
          d.view = ("queue.depth", some { milli := 0 }, some StandardUnitCount)
            ∧ (metricsData Example.runtime Example.cfg 7
                (Example.scenario ++ [("queue.depth", Metric.GaugeFloat64 { milli := 0 })])).data
              = (metricsData Example.runtime Example.cfg 7 Example.scenario).data ++ [d])
      ∧ (metricsData Example.runtime Example.cfg 7
            (Example.scenario ++ [("queue.depth", Metric.Gauge (-7))])).data.map MetricDatum.view
          = [ ("req.count", some { milli := 5000 }, some "Count"),
              ("mem.used", some { milli := 120000 }, some "Count"),
              ("queue.depth", some { milli := -7000 }, some "Count") ] :=
  ⟨by decide,
    (gauge_point Example.runtime Example.cfg 7 Example.scenario "queue.depth" (by decide)
      (-7) { milli := 0 }).1,
    (gauge_point Example.runtime Example.cfg 7 Example.scenario "queue.depth" (by decide)
      (-7) { milli := 0 }).2,
    by decide⟩

/-! ### The client -/

theorem percentileLoop_client (rt : Runtime F) (cfg : Config F) (client : CloudWatchClient F)
    (now : Time) (name : String) (percentile : F → F) (ps : List F) :
    ∀ s : Acc F, percentileLoop rt { cfg with Client := client } now name percentile ps s
      = percentileLoop rt cfg now name percentile ps s := by
  induction ps with
  | nil => intro s; rfl
  | cons p ps ih =>
    intro s
    rw [percentileLoop, percentileLoop, ih]
    rfl

theorem datazLoop_client (rt : Runtime F) (cfg : Config F) (client : CloudWatchClient F)
    (now : Time) (l : List (String × F)) :
    ∀ s : Acc F, datazLoop rt { cfg with Client := client } now l s = datazLoop rt cfg now l s := by
  induction l with
  | nil => intro s; rfl
  | cons kv l ih =>
    intro s
    obtain ⟨n, v⟩ := kv
    rw [datazLoop, datazLoop, ih]
    rfl

theorem visit_client (rt : Runtime F) (cfg : Config F) (client : CloudWatchClient F)
    (now : Time) (name : String) (i : Metric F) (s : Acc F) :
    visit rt { cfg with Client := client } now name i s = visit rt cfg now name i s := by
  unfold visit
  simp only [percentileLoop_client, datazLoop_client]
  rfl

theorem registryEach_client (rt : Runtime F) (cfg : Config F) (client : CloudWatchClient F)
    (now : Time) (reg : Registry F) :
    ∀ s : Acc F, registryEach rt { cfg with Client := client } now reg s
      = registryEach rt cfg now reg s := by
  induction reg with
  | nil => intro s; rfl
  | cons e reg ih =>
    intro s
    obtain ⟨name, i⟩ := e
    simp only [registryEach, visit_client, ih]

theorem metricsData_client (rt : Runtime F) (cfg : Config F) (client : CloudWatchClient F)
    (now : Time) (reg : Registry F) :
    metricsData rt { cfg with Client := client } now reg = metricsData rt cfg now reg := by
  unfold metricsData
  rw [registryEach_client]

/-- The loop of `emitMetrics` under two clients, from worlds with the same
requests: the data left and the requests made are the same. -/
theorem emitLoop_client (cfg : Config F) (client : CloudWatchClient F) (n : Nat) :
    ∀ (data : List (MetricDatum F)) (w w' : World F), data.length ≤ n →
      w'.requests = w.requests →
      (emitLoop { cfg with Client := client } data w').1 = (emitLoop cfg data w).1
        ∧ (emitLoop { cfg with Client := client } data w').2.requests
          = (emitLoop cfg data w).2.requests := by
  induction n with
  | zero =>
    intro data w w' hn hw
    rw [emitLoop_unfold, emitLoop_unfold cfg, if_neg (by omega), if_neg (by omega)]
    exact ⟨rfl, hw⟩
  | succ n ih =>
    intro data w w' hn hw
    rw [emitLoop_unfold, emitLoop_unfold cfg]
    by_cases h : data.length > 20
    · rw [if_pos h, if_pos h]
      exact ih (data.drop 20) _ _ (by simp; omega)
        (by rw [putMetrics_requests, putMetrics_requests, hw])
    · rw [if_neg h, if_neg h]
      exact ⟨rfl, hw⟩

/-- When `metricsData` returns between 1 and 20 data points, `emitMetrics` calls
`putMetrics` once, on them. -/
theorem emitMetrics_of_le_twenty (rt : Runtime F) (cfg : Config F) (now : Time)
    (registry : Registry F) (w : World F)
    (h0 : 0 < (metricsData rt cfg now registry).data.length)
    (h20 : (metricsData rt cfg now registry).data.length ≤ 20) :
    (emitMetrics rt cfg now registry w).1
      = putMetrics cfg (metricsData rt cfg now registry).data w := by
  have hloop : emitLoop cfg (metricsData rt cfg now registry).data w
      = ((metricsData rt cfg now registry).data, w) := by
    rw [emitLoop_unfold]
    exact if_neg (by omega)
  unfold emitMetrics
  dsimp only
  rw [hloop]
  dsimp only
  rw [if_pos h0]

/-- The batches submitted, put end to end, are the data of `metricsData`. -/
theorem submitted_flatten (rt : Runtime F) (cfg : Config F) (now : Time)
    (registry : Registry F) (w : World F) :
    (submitted w (emitMetrics rt cfg now registry w).1).flatten
      = (metricsData rt cfg now registry).data := by
  obtain ⟨bs, rest, h1, h2, -, -, -⟩ := emitMetrics_submitted rt cfg now registry w
  rw [h1, ← h2]
  by_cases hr : rest.length > 0
  · rw [if_pos hr]
    simp
  · have hnil : rest = [] := List.length_eq_zero.1 (by omega)
    rw [if_neg hr, hnil]
    simp

/-- Under the client whose first call fails, the two data points of the
scenario are submitted once and the failure is logged; under the client that
never fails the request is the same and nothing is logged. -/
theorem emitMetrics_failure_logged :
    (emitMetrics Example.runtime Example.cfg 7 Example.scenario Example.quiet).1
        = World.mk
            [PutMetricDataInput.mk "app"
              (metricsData Example.runtime Example.cfg 7 Example.scenario).data]
            [LogLine.atError "Throttling"]
      ∧ (emitMetrics Example.runtime Example.cfgReliable 7 Example.scenario Example.quiet).1
        = World.mk
            [PutMetricDataInput.mk "app"
              (metricsData Example.runtime Example.cfg 7 Example.scenario).data]
            [] := by
  constructor
  · rw [emitMetrics_of_le_twenty _ _ _ _ _ (by decide) (by decide)]
    decide
  · rw [emitMetrics_of_le_twenty _ _ _ _ _ (by decide) (by decide)]
    decide

/-- C12: whatever the client answers to the calls of `PutMetricData`, the
requests `emitMetrics` makes are the same, in the same order, as under any
other client, and so are the registry it leaves and the batches it submits,
whose concatenation is the data of `metricsData`: a failed submission is not
made again and stops no later one. -/
theorem emitMetrics_client_independent (rt : Runtime F) (cfg : Config F) (now : Time)
    (registry : Registry F) (w : World F) (client : CloudWatchClient F) :
    (emitMetrics rt { cfg with Client := client } now registry w).1.requests
        = (emitMetrics rt cfg now registry w).1.requests
      ∧ submitted w (emitMetrics rt { cfg with Client := client } now registry w).1
        = submitted w (emitMetrics rt cfg now registry w).1
      ∧ (submitted w (emitMetrics rt { cfg with Client := client } now registry w).1).flatten
        = (metricsData rt cfg now registry).data
      ∧ (emitMetrics rt { cfg with Client := client } now registry w).2
        = (emitMetrics rt cfg now registry w).2 := by
  have hreq : (emitMetrics rt { cfg with Client := client } now registry w).1.requests
      = (emitMetrics rt cfg now registry w).1.requests := by
    obtain ⟨h1, h2⟩ := emitLoop_client cfg client _ (metricsData rt cfg now registry).data w w
      le_rfl rfl
    unfold emitMetrics
    dsimp only
    rw [metricsData_client, h1]
    by_cases hl : (emitLoop cfg (metricsData rt cfg now registry).data w).1.length > 0
    · rw [if_pos hl, if_pos hl, putMetrics_requests, putMetrics_requests, h2]
    · rw [if_neg hl, if_neg hl, h2]
  refine ⟨hreq, ?_, ?_, ?_⟩
  · unfold submitted
    rw [hreq]
  · have h := submitted_flatten rt { cfg with Client := client } now registry w
    rw [metricsData_client] at h
    exact h
  · unfold emitMetrics
    dsimp only
    rw [metricsData_client]

/-! ### What every data point carries -/

theorem percentileLoop_forall (rt : Runtime F) (cfg : Config F) (now : Time) (name : String)
    (percentile : F → F) (P : MetricDatum F → Prop)
    (hP : ∀ (k : Nat) (n : String) (v : F), P { aDatum rt cfg now k n with Value := some v })
    (ps : List F) :
    ∀ s : Acc F, ∃ pts : List (MetricDatum F),
      (percentileLoop rt cfg now name percentile ps s).data = s.data ++ pts
        ∧ ∀ d ∈ pts, P d := by
  induction ps with
  | nil => exact fun s => ⟨[], by simp [percentileLoop], by simp⟩
  | cons p ps ih =>
    intro s
    obtain ⟨pts, h1, h2⟩ := ih
      { data := s.data ++ [{ aDatum rt cfg now s.ranges (name ++ "-perc" ++ rt.sprintf3f p) with
          Value := some (percentile p) }], ranges := s.ranges + 1 }
    refine ⟨{ aDatum rt cfg now s.ranges (name ++ "-perc" ++ rt.sprintf3f p) with
      Value := some (percentile p) } :: pts, ?_, ?_⟩
    · rw [percentileLoop]
      dsimp only
      rw [h1, List.append_assoc]
      rfl
    · intro d hd
      rcases List.mem_cons.1 hd with rfl | hd
      · exact hP _ _ _
      · exact h2 d hd

theorem datazLoop_forall (rt : Runtime F) (cfg : Config F) (now : Time)
    (P : MetricDatum F → Prop)
    (hP : ∀ (k : Nat) (n : String) (v : F), P { aDatum rt cfg now k n with Value := some v })
    (l : List (String × F)) :
    ∀ s : Acc F, ∃ pts : List (MetricDatum F),
      (datazLoop rt cfg now l s).data = s.data ++ pts ∧ ∀ d ∈ pts, P d := by
  induction l with
  | nil => exact fun s => ⟨[], by simp [datazLoop], by simp⟩
  | cons kv l ih =>
    intro s
    obtain ⟨n, v⟩ := kv
    obtain ⟨pts, h1, h2⟩ := ih
      { data := s.data ++ [{ aDatum rt cfg now s.ranges n with Value := some v }],
        ranges := s.ranges + 1 }
    refine ⟨{ aDatum rt cfg now s.ranges n with Value := some v } :: pts, ?_, ?_⟩
    · rw [datazLoop]
      dsimp only
      rw [h1, List.append_assoc]
      rfl
    · intro d hd
      rcases List.mem_cons.1 hd with rfl | hd
      · exact hP _ _ _
      · exact h2 d hd

/-- The data points the callback appends for a Histogram, a Meter or a Timer
that passes the filter are made by `aDatum` and given a value, nothing else. -/
theorem visit_snapshot_forall (rt : Runtime F) (cfg : Config F) (now : Time) (name : String)
    (P : MetricDatum F → Prop)
    (hP : ∀ (k : Nat) (n : String) (v : F), P { aDatum rt cfg now k n with Value := some v })
    (i : Metric F) (hi : (∃ h, i = Metric.Histogram h) ∨ (∃ m, i = Metric.Meter m)
      ∨ (∃ t, i = Metric.Timer t))
    (hpass : cfg.Filter.ShouldReport name = true) (s : Acc F) :
    ∃ pts : List (MetricDatum F),
      (visit rt cfg now name i s).1.data = s.data ++ pts ∧ ∀ d ∈ pts, P d := by
  rcases hi with ⟨h, rfl⟩ | ⟨m, rfl⟩ | ⟨t, rfl⟩
  · rw [visit_histogram rt cfg now name h s hpass]
    by_cases hc : h.Count = 0
    · exact ⟨[], by rw [if_pos hc, List.append_nil], by simp⟩
    · rw [if_neg hc]
      exact percentileLoop_forall rt cfg now name h.Percentile P hP _ s
  · rw [visit_meter rt cfg now name m s hpass]
    exact datazLoop_forall rt cfg now P hP _ { s with ranges := s.ranges + 1 }
  · rw [visit_timer rt cfg now name t s hpass]
    by_cases hc : t.Count = 0
    · exact ⟨[], by rw [if_pos hc, List.append_nil], by simp⟩
    · rw [if_neg hc]
      obtain ⟨pts, h1, h2⟩ := datazLoop_forall rt cfg now P hP
        (rangeMap rt s.ranges
          [ (name ++ ".count", rt.float64 t.Count), (name ++ ".one-minute", t.Rate1),
            (name ++ ".five-minute", t.Rate5), (name ++ ".fifteen-minute", t.Rate15),
            (name ++ ".mean", t.RateMean) ]) { s with ranges := s.ranges + 1 }
      obtain ⟨qts, h3, h4⟩ := percentileLoop_forall rt cfg now name t.Percentile P hP
        (cfg.Filter.Percentiles name) (datazLoop rt cfg now
        (rangeMap rt s.ranges
          [ (name ++ ".count", rt.float64 t.Count), (name ++ ".one-minute", t.Rate1),
            (name ++ ".five-minute", t.Rate5), (name ++ ".fifteen-minute", t.Rate15),
            (name ++ ".mean", t.RateMean) ]) { s with ranges := s.ranges + 1 })
      refine ⟨pts ++ qts, ?_, ?_⟩
      · dsimp only
        rw [h3, h1, List.append_assoc]
      · intro d hd
        rcases List.mem_append.1 hd with hd | hd
        · exact h2 d hd
        · exact h4 d hd

/-- The data points the callback appends for a Counter, a Gauge or a
GaugeFloat64 that passes the filter are made by `aDatum` and given the unit
Count and a value, nothing else. -/
theorem visit_count_forall (rt : Runtime F) (cfg : Config F) (now : Time) (name : String)
    (P : MetricDatum F → Prop)
    (hP : ∀ (k : Nat) (n : String) (v : F),
      P { aDatum rt cfg now k n with Unit := some StandardUnitCount, Value := some v })
    (i : Metric F) (hi : (∃ c, i = Metric.Counter c) ∨ (∃ v, i = Metric.Gauge v)
      ∨ (∃ x, i = Metric.GaugeFloat64 x))
    (hpass : cfg.Filter.ShouldReport name = true) (s : Acc F) :
    ∃ pts : List (MetricDatum F),
      (visit rt cfg now name i s).1.data = s.data ++ pts ∧ ∀ d ∈ pts, P d := by
  rcases hi with ⟨c, rfl⟩ | ⟨v, rfl⟩ | ⟨x, rfl⟩
  · rw [visit_counter rt cfg now name c s hpass]
    by_cases hc : c > 0
    · refine ⟨[{ aDatum rt cfg now s.ranges name with
        Unit := some StandardUnitCount, Value := some (rt.float64 c) }], ?_, ?_⟩
      · dsimp only
        rw [if_pos hc]
      · intro d hd
        rw [List.mem_singleton] at hd
        subst hd
        exact hP _ _ _
    · exact ⟨[], by dsimp only; rw [if_neg hc, List.append_nil], by simp⟩
  · rw [visit_gauge rt cfg now name v s hpass]
    refine ⟨[{ aDatum rt cfg now s.ranges name with
      Unit := some StandardUnitCount, Value := some (rt.float64 v) }], rfl, ?_⟩
    intro d hd
    rw [List.mem_singleton] at hd
    subst hd
    exact hP _ _ _
  · rw [visit_gaugeFloat64 rt cfg now name x s hpass]
    refine ⟨[{ aDatum rt cfg now s.ranges name with
      Unit := some StandardUnitCount, Value := some x }], rfl, ?_⟩
    intro d hd
    rw [List.mem_singleton] at hd
    subst hd
    exact hP _ _ _

theorem metric_kind (i : Metric F) :
    ((∃ c, i = Metric.Counter c) ∨ (∃ v, i = Metric.Gauge v) ∨ (∃ x, i = Metric.GaugeFloat64 x))
      ∨ ((∃ h, i = Metric.Histogram h) ∨ (∃ m, i = Metric.Meter m) ∨ (∃ t, i = Metric.Timer t))
      ∨ i = Metric.Other := by
  cases i with
  | Counter c => exact Or.inl (Or.inl ⟨c, rfl⟩)
  | Gauge v => exact Or.inl (Or.inr (Or.inl ⟨v, rfl⟩))
  | GaugeFloat64 x => exact Or.inl (Or.inr (Or.inr ⟨x, rfl⟩))
  | Histogram h => exact Or.inr (Or.inl (Or.inl ⟨h, rfl⟩))
  | Meter m => exact Or.inr (Or.inl (Or.inr (Or.inl ⟨m, rfl⟩)))
  | Timer t => exact Or.inr (Or.inl (Or.inr (Or.inr ⟨t, rfl⟩)))
  | Other => exact Or.inr (Or.inr rfl)

/-- A property of every data point `aDatum` makes, once it has a value and
either no unit or the unit Count, holds of every data point the callback
appends. -/
theorem visit_forall (rt : Runtime F) (cfg : Config F) (now : Time) (name : String)
    (P : MetricDatum F → Prop)
    (hnone : ∀ (k : Nat) (n : String) (v : F), P { aDatum rt cfg now k n with Value := some v })
    (hcount : ∀ (k : Nat) (n : String) (v : F),
      P { aDatum rt cfg now k n with Unit := some StandardUnitCount, Value := some v })
    (i : Metric F) (s : Acc F) :
    ∃ pts : List (MetricDatum F),
      (visit rt cfg now name i s).1.data = s.data ++ pts ∧ ∀ d ∈ pts, P d := by
  cases hf : cfg.Filter.ShouldReport name with
  | false => exact ⟨[], by rw [visit_rejected rt cfg now name i s hf, List.append_nil], by simp⟩
  | true =>
    rcases metric_kind i with hi | hi | rfl
    · exact visit_count_forall rt cfg now name P hcount i hi hf s
    · exact visit_snapshot_forall rt cfg now name P hnone i hi hf s
    · exact ⟨[], by rw [visit_other, List.append_nil], by simp⟩

theorem registryEach_forall (rt : Runtime F) (cfg : Config F) (now : Time)
    (P : MetricDatum F → Prop)
    (hnone : ∀ (k : Nat) (n : String) (v : F), P { aDatum rt cfg now k n with Value := some v })
    (hcount : ∀ (k : Nat) (n : String) (v : F),
      P { aDatum rt cfg now k n with Unit := some StandardUnitCount, Value := some v })
    (reg : Registry F) :
    ∀ s : Acc F, ∃ pts : List (MetricDatum F),
      (registryEach rt cfg now reg s).1.data = s.data ++ pts ∧ ∀ d ∈ pts, P d := by
  induction reg with
  | nil => exact fun s => ⟨[], by simp [registryEach], by simp⟩
  | cons e reg ih =>
    intro s
    obtain ⟨name, i⟩ := e
    obtain ⟨pts, h1, h2⟩ := visit_forall rt cfg now name P hnone hcount i s
    obtain ⟨qts, h3, h4⟩ := ih (visit rt cfg now name i s).1
    refine ⟨pts ++ qts, by simp only [registryEach, h3, h1, List.append_assoc], ?_⟩
    intro d hd
    rcases List.mem_append.1 hd with hd | hd
    · exact h2 d hd
    · exact h4 d hd

theorem metricsData_forall (rt : Runtime F) (cfg : Config F) (now : Time)
    (P : MetricDatum F → Prop)
    (hnone : ∀ (k : Nat) (n : String) (v : F), P { aDatum rt cfg now k n with Value := some v })
    (hcount : ∀ (k : Nat) (n : String) (v : F),
      P { aDatum rt cfg now k n with Unit := some StandardUnitCount, Value := some v })
    (reg : Registry F) : ∀ d ∈ (metricsData rt cfg now reg).data, P d := by
  obtain ⟨pts, h1, h2⟩ := registryEach_forall rt cfg now P hnone hcount reg
    { data := [], ranges := 0 }
  intro d hd
  have hdata : (metricsData rt cfg now reg).data = pts := by
    unfold metricsData
    dsimp only
    rw [h1]
    rfl
  rw [hdata] at hd
  exact h2 d hd

theorem foldl_append_singleton {α β : Type} (f : α → β) (l : List α) :
    ∀ init : List β, l.foldl (fun ds a => ds ++ [f a]) init = init ++ l.map f := by
  induction l with
  | nil => intro init; simp
  | cons a l ih =>
    intro init
    rw [List.foldl_cons, ih, List.map_cons, List.append_assoc]
    rfl

/-- The function `dimensions` returns the static dimensions, in the order of the
iteration over the map. -/
theorem dimensions_perm (rt : Runtime F) (cfg : Config F) (k : Nat) :
    (dimensions rt cfg k).Perm
      (cfg.StaticDimensions.map (fun kv => Dimension.mk kv.1 kv.2)) := by
  unfold dimensions
  rw [foldl_append_singleton (fun kv : String × String => Dimension.mk kv.1 kv.2),
    List.nil_append]
  exact (rangeMap_perm rt k cfg.StaticDimensions).map _

/-- C13: every data point a call of `metricsData` returns carries the instant
taken at the start of the call, whatever the registry, the configuration, the
name and the kind of the metric. -/
theorem metricsData_timestamp (rt : Runtime F) (cfg : Config F) (now : Time)
    (registry : Registry F) (d : MetricDatum F)
    (hd : d ∈ (metricsData rt cfg now registry).data) : d.Timestamp = now :=
  metricsData_forall rt cfg now (fun d => d.Timestamp = now) (fun _ _ _ => rfl)
    (fun _ _ _ => rfl) registry d hd

/-- The second percentile point of the timer `"latency"`, in a call at the
instant 7. -/
theorem metricsData_timestamp_witness :
    MetricDatum.mk "latency-perc0.990" 7
          [Dimension.mk "host" "a", Dimension.mk "env" "prod"] none
          (some (Example.Fixed3.mk 50000))
        ∈ (metricsData Example.runtime Example.cfg 7
            [("latency", Metric.Timer Example.latency)]).data
      ∧ (MetricDatum.mk "latency-perc0.990" 7
          [Dimension.mk "host" "a", Dimension.mk "env" "prod"] none
          (some (Example.Fixed3.mk 50000))).Timestamp = 7
      ∧ (metricsData Example.runtime Example.cfg 7
            [("latency", Metric.Timer Example.latency)]).data.map (fun d => d.Timestamp)
          = [7, 7, 7, 7, 7, 7, 7] :=
  ⟨by decide,
    metricsData_timestamp Example.runtime Example.cfg 7
      [("latency", Metric.Timer Example.latency)] _ (by decide),
    by decide⟩

/-- C14, as amended: all the data points a call of `metricsData` returns carry
the same (key, value) pairs, those of the static dimensions, each as often as
there: the dimensions of a data point are a reordering of the static dimensions,
and so of the dimensions of any other data point of the call.  The order of the
pairs in a data point is that of an iteration over the map made for that data
point. -/
theorem metricsData_dimensions (rt : Runtime F) (cfg : Config F) (now : Time)
    (registry : Registry F) (d e : MetricDatum F)
    (hd : d ∈ (metricsData rt cfg now registry).data)
    (he : e ∈ (metricsData rt cfg now registry).data) :
    d.Dimensions.Perm (cfg.StaticDimensions.map (fun kv => Dimension.mk kv.1 kv.2))
      ∧ d.Dimensions.Perm e.Dimensions := by
  have hall := metricsData_forall rt cfg now
    (fun d => d.Dimensions.Perm
      (cfg.StaticDimensions.map (fun kv : String × String => Dimension.mk kv.1 kv.2)))
    (fun k _ _ => dimensions_perm rt cfg k) (fun k _ _ => dimensions_perm rt cfg k) registry
  exact ⟨hall d hd, (hall d hd).trans (hall e he).symm⟩

/-- The two data points of the scenario: the same two pairs, in two orders. -/
theorem metricsData_dimensions_witness :
    MetricDatum.mk "req.count" 7 [Dimension.mk "env" "prod", Dimension.mk "host" "a"]
          (some "Count") (some (Example.Fixed3.mk 5000))
        ∈ (metricsData Example.runtime Example.cfg 7 Example.scenario).data
      ∧ MetricDatum.mk "mem.used" 7 [Dimension.mk "host" "a", Dimension.mk "env" "prod"]
          (some "Count") (some (Example.Fixed3.mk 120000))
        ∈ (metricsData Example.runtime Example.cfg 7 Example.scenario).data
      ∧ [Dimension.mk "env" "prod", Dimension.mk "host" "a"].Perm
          (Example.cfg.StaticDimensions.map (fun kv => Dimension.mk kv.1 kv.2))
      ∧ [Dimension.mk "env" "prod", Dimension.mk "host" "a"].Perm
          [Dimension.mk "host" "a", Dimension.mk "env" "prod"] :=
  ⟨by decide, by decide,
    metricsData_dimensions Example.runtime Example.cfg 7 Example.scenario
      (MetricDatum.mk "req.count" 7 [Dimension.mk "env" "prod", Dimension.mk "host" "a"]
        (some "Count") (some (Example.Fixed3.mk 5000)))
      (MetricDatum.mk "mem.used" 7 [Dimension.mk "host" "a", Dimension.mk "env" "prod"]
        (some "Count") (some (Example.Fixed3.mk 120000)))
      (by decide) (by decide)⟩

/-- C14, as stated, fails: under a runtime whose iterations over a map do not
all start at the same entry, the two data points of one call carry the two
static dimensions in different orders. -/
theorem metricsData_dimensions_order_differs :
    (metricsData Example.runtime Example.cfg 7 Example.scenario).data.map
          (fun d => d.Dimensions)
        = [ [Dimension.mk "env" "prod", Dimension.mk "host" "a"],
            [Dimension.mk "host" "a", Dimension.mk "env" "prod"] ]
      ∧ ¬ ∀ d ∈ (metricsData Example.runtime Example.cfg 7 Example.scenario).data,
          ∀ e ∈ (metricsData Example.runtime Example.cfg 7 Example.scenario).data,
            d.Dimensions = e.Dimensions := by
  decide

/-! ### What the call does to the registry -/

/-- C15: an entry whose value is of none of the six kinds: the call returns a
result, the data it returns are those it returns without the entry, and the
entry is in the registry after the call as it was before it. -/
theorem other_kind_skipped (rt : Runtime F) (cfg : Config F) (now : Time)
    (pre post : Registry F) (name : String) :
    (metricsData rt cfg now (pre ++ (name, Metric.Other) :: post)).data
        = (metricsData rt cfg now (pre ++ post)).data
      ∧ (metricsData rt cfg now (pre ++ [(name, Metric.Other)])).data
        = (metricsData rt cfg now pre).data
      ∧ (metricsData rt cfg now (pre ++ (name, Metric.Other) :: post)).registry[pre.length]?
        = some (name, Metric.Other) := by
  refine ⟨?_, ?_, ?_⟩
  · rw [(metricsData_insert rt cfg now pre post name Metric.Other).1, visit_other]
    unfold metricsData accAfter
    rw [registryEach_append]
  · rw [metricsData_snoc_data, visit_other]
    rfl
  · rw [metricsData_registry_at, visit_other]

/-- The callback leaves the metric as it is, but for a Counter when
`ResetCountersOnReport` is set, which it may leave with count 0. -/
theorem visit_metric (rt : Runtime F) (cfg : Config F) (now : Time) (name : String)
    (i : Metric F) (s : Acc F) :
    (visit rt cfg now name i s).2 = i
      ∨ ∃ c, i = Metric.Counter c ∧ cfg.ResetCountersOnReport = true
          ∧ (visit rt cfg now name i s).2 = Metric.Counter 0 := by
  cases hf : cfg.Filter.ShouldReport name with
  | false => exact Or.inl (by rw [visit_rejected rt cfg now name i s hf])
  | true =>
    cases i with
    | Counter c =>
      rw [visit_counter rt cfg now name c s hf]
      cases hr : cfg.ResetCountersOnReport with
      | false => exact Or.inl (by simp)
      | true => exact Or.inr ⟨c, rfl, rfl, by simp⟩
    | Gauge v => exact Or.inl (by rw [visit_gauge rt cfg now name v s hf])
    | GaugeFloat64 x => exact Or.inl (by rw [visit_gaugeFloat64 rt cfg now name x s hf])
    | Histogram h =>
      refine Or.inl ?_
      rw [visit_histogram rt cfg now name h s hf]
      split <;> rfl
    | Meter m => exact Or.inl (by rw [visit_meter rt cfg now name m s hf])
    | Timer t =>
      refine Or.inl ?_
      rw [visit_timer rt cfg now name t s hf]
      split <;> rfl
    | Other => exact Or.inl (by rw [visit_other])

/-- The entry at a position of the registry after the walk is the entry at that
position before it, as the callback left it. -/
theorem registryEach_registry_at (rt : Runtime F) (cfg : Config F) (now : Time)
    (reg : Registry F) :
    ∀ (s : Acc F) (i : Nat) (name : String) (m : Metric F), reg[i]? = some (name, m) →
      ∃ s' : Acc F, (registryEach rt cfg now reg s).2[i]?
        = some (name, (visit rt cfg now name m s').2) := by
  induction reg with
  | nil => intro s i name m h; simp at h
  | cons e reg ih =>
    intro s i name m h
    obtain ⟨n, x⟩ := e
    cases i with
    | zero =>
      rw [List.getElem?_cons_zero] at h
      injection h with h
      injection h with h1 h2
      subst h1
      subst h2
      exact ⟨s, by simp only [registryEach, List.getElem?_cons_zero]⟩
    | succ i =>
      rw [List.getElem?_cons_succ] at h
      obtain ⟨s', hs'⟩ := ih (visit rt cfg now n x s).1 i name m h
      exact ⟨s', by simp only [registryEach, List.getElem?_cons_succ, hs']⟩

/-- C16: the call changes the registry by the reset of the counters only.  When
`ResetCountersOnReport` is not set the registry after the call is the registry
before it.  When it is set the registry has the same length, and the entry at
each position is the entry before the call, or that entry was a Counter and is
now the Counter of the same name with count 0: an entry that is not a Counter
is unchanged. -/
theorem registry_changed_by_reset_only (rt : Runtime F) (cfg : Config F) (now : Time)
    (registry : Registry F) :
    (cfg.ResetCountersOnReport = false → (metricsData rt cfg now registry).registry = registry)
      ∧ (metricsData rt cfg now registry).registry.length = registry.length
      ∧ (∀ (i : Nat) (name : String) (m : Metric F), registry[i]? = some (name, m) →
          (metricsData rt cfg now registry).registry[i]? = some (name, m)
            ∨ ∃ c, m = Metric.Counter c ∧ cfg.ResetCountersOnReport = true
                ∧ (metricsData rt cfg now registry).registry[i]? = some (name, Metric.Counter 0))
      ∧ ∀ (i : Nat) (name : String) (m : Metric F), registry[i]? = some (name, m) →
          (∀ c, m ≠ Metric.Counter c) →
          (metricsData rt cfg now registry).registry[i]? = some (name, m) := by
  have hat : ∀ (i : Nat) (name : String) (m : Metric F), registry[i]? = some (name, m) →
      (metricsData rt cfg now registry).registry[i]? = some (name, m)
        ∨ ∃ c, m = Metric.Counter c ∧ cfg.ResetCountersOnReport = true
            ∧ (metricsData rt cfg now registry).registry[i]? = some (name, Metric.Counter 0) := by
    intro i name m h
    obtain ⟨s', hs'⟩ := registryEach_registry_at rt cfg now registry
      { data := [], ranges := 0 } i name m h
    have hreg : (metricsData rt cfg now registry).registry[i]?
        = some (name, (visit rt cfg now name m s').2) := hs'
    rcases visit_metric rt cfg now name m s' with hv | ⟨c, hc, hr, hv⟩
    · exact Or.inl (by rw [hreg, hv])
    · exact Or.inr ⟨c, hc, hr, by rw [hreg, hv]⟩
  refine ⟨?_, metricsData_registry_length rt cfg now registry, hat, ?_⟩
  · intro hoff
    apply List.ext_getElem?
    intro i
    cases h : registry[i]? with
    | none =>
      rw [List.getElem?_eq_none_iff] at h ⊢
      rw [metricsData_registry_length]
      exact h
    | some e =>
      obtain ⟨name, m⟩ := e
      rcases hat i name m h with hv | ⟨c, -, hr, -⟩
      · exact hv
      · rw [hoff] at hr
        cases hr
  · intro i name m h hm
    rcases hat i name m h with hv | ⟨c, hc, -, -⟩
    · exact hv
    · exact absurd hc (hm c)

/-- The scenario with the timer `"latency"` after it, with the reset enabled:
the gauge and the timer are as before the call, the counter is at 0. -/
theorem registry_changed_by_reset_only_witness :
    (Example.scenario ++ [("latency", Metric.Timer Example.latency)])[2]?
        = some ("latency", Metric.Timer Example.latency)
      ∧ (∀ c, Metric.Timer Example.latency ≠ Metric.Counter c)
      ∧ (metricsData Example.runtime Example.cfg 7
            (Example.scenario ++ [("latency", Metric.Timer Example.latency)])).registry[2]?
          = some ("latency", Metric.Timer Example.latency)
      ∧ (metricsData Example.runtime Example.cfg 7
            (Example.scenario ++ [("latency", Metric.Timer Example.latency)])).registry[0]?
          = some ("req.count", Metric.Counter 0) :=
  ⟨rfl, fun _ h => Metric.noConfusion h,
    (registry_changed_by_reset_only Example.runtime Example.cfg 7
      (Example.scenario ++ [("latency", Metric.Timer Example.latency)])).2.2.2 2 "latency"
      (Metric.Timer Example.latency) rfl (fun _ h => Metric.noConfusion h),
    rfl⟩

/-- C19: a Counter that passes the filter, when `ResetCountersOnReport` is set,
is left with count 0 whatever its count was; when its count was zero or
negative the call has appended no data point for it. -/
theorem counter_cleared_unreported (rt : Runtime F) (cfg : Config F) (now : Time)
    (pre post : Registry F) (name : String) (c : Int)
    (hpass : cfg.Filter.ShouldReport name = true)
    (hreset : cfg.ResetCountersOnReport = true) :
    (metricsData rt cfg now (pre ++ (name, Metric.Counter c) :: post)).registry[pre.length]?
        = some (name, Metric.Counter 0)
      ∧ (c ≤ 0 →
        (metricsData rt cfg now (pre ++ [(name, Metric.Counter c)])).data
          = (metricsData rt cfg now pre).data) := by
  constructor
  · rw [metricsData_registry_at, visit_counter rt cfg now name c _ hpass]
    dsimp only
    rw [hreset, if_pos rfl]
  · intro hc
    rw [metricsData_snoc_data, visit_counter rt cfg now name c _ hpass]
    dsimp only
    rw [if_neg (by omega)]
    rfl

/-- A counter at -3 after the gauge of the scenario: no data point for it, and
it is left at 0. -/
theorem counter_cleared_unreported_witness :
    Example.cfg.Filter.ShouldReport "balance" = true
      ∧ Example.cfg.ResetCountersOnReport = true
      ∧ (-3 : Int) ≤ 0
      ∧ (metricsData Example.runtime Example.cfg 7
            [("mem.used", Metric.Gauge 120), ("balance", Metric.Counter (-3))]).registry[1]?
          = some ("balance", Metric.Counter 0)
      ∧ (metricsData Example.runtime Example.cfg 7
            [("mem.used", Metric.Gauge 120), ("balance", Metric.Counter (-3))]).data
          = (metricsData Example.runtime Example.cfg 7 [("mem.used", Metric.Gauge 120)]).data :=
  ⟨by decide, by decide, by decide,
    (counter_cleared_unreported Example.runtime Example.cfg 7 [("mem.used", Metric.Gauge 120)]
      [] "balance" (-3) (by decide) (by decide)).1,
    (counter_cleared_unreported Example.runtime Example.cfg 7 [("mem.used", Metric.Gauge 120)]
      [] "balance" (-3) (by decide) (by decide)).2 (by decide)⟩

/-! ### The data as a concatenation -/

/-- C17: the data `metricsData` returns are the concatenation, in the order of
the registry, of one sequence for each entry, the data points the callback
appended when it visited the entry; the sequence of an entry the filter rejects
is empty. -/
theorem metricsData_concat_of_entries (rt : Runtime F) (cfg : Config F) (now : Time)
    (registry : Registry F) :
    ∃ segs : List (List (MetricDatum F)),
      segs.length = registry.length
        ∧ (metricsData rt cfg now registry).data = segs.flatten
        ∧ ∀ (i : Nat) (name : String) (m : Metric F), registry[i]? = some (name, m) →
            ∃ seg, segs[i]? = some seg
              ∧ (metricsData rt cfg now (registry.take (i + 1))).data
                = (metricsData rt cfg now (registry.take i)).data ++ seg
              ∧ (cfg.Filter.ShouldReport name = false → seg = []) := by
  induction registry using List.reverseRecOn with
  | nil => exact ⟨[], rfl, rfl, fun i name m h => by simp at h⟩
  | append_singleton l a ih =>
    obtain ⟨segs, hlen, hdata, hseg⟩ := ih
    obtain ⟨n, x⟩ := a
    obtain ⟨pts, hpts⟩ := visit_data_extends rt cfg now n x (accAfter rt cfg now l)
    have hsnoc : (metricsData rt cfg now (l ++ [(n, x)])).data
        = (metricsData rt cfg now l).data ++ pts := by
      rw [metricsData_snoc_data, hpts]
      rfl
    refine ⟨segs ++ [pts], by simp [hlen], ?_, ?_⟩
    · rw [hsnoc, hdata]
      simp
    · intro i name m h
      by_cases hi : i < l.length
      · rw [List.getElem?_append_left hi] at h
        obtain ⟨seg, h1, h2, h3⟩ := hseg i name m h
        refine ⟨seg, ?_, ?_, h3⟩
        · rw [List.getElem?_append_left (by omega)]
          exact h1
        · rw [List.take_append_of_le_length (by omega),
            List.take_append_of_le_length (by omega)]
          exact h2
      · have hlt : i < (l ++ [(n, x)]).length := by
          by_contra hge
          rw [List.getElem?_eq_none (by omega)] at h
          cases h
        rw [List.length_append, List.length_singleton] at hlt
        have hil : i = l.length := by omega
        subst hil
        rw [List.getElem?_append_right (le_refl _), Nat.sub_self, List.getElem?_cons_zero] at h
        injection h with h
        injection h with hn hx
        subst hn
        subst hx
        refine ⟨pts, ?_, ?_, ?_⟩
        · rw [List.getElem?_append_right (by omega), hlen, Nat.sub_self,
            List.getElem?_cons_zero]
        · rw [List.take_of_length_le (by simp), List.take_left']
          · exact hsnoc
          · rfl
        · intro hrej
          rw [visit_rejected rt cfg now n x _ hrej] at hpts
          have hnil : (accAfter rt cfg now l).data ++ []
              = (accAfter rt cfg now l).data ++ pts := by
            rw [List.append_nil]
            exact hpts
          exact (List.append_cancel_left hnil).symm

/-- The scenario with a counter under the rejected name and the timer
`"latency"` after it: three sequences, of 1, 1, 0 and 7 data points. -/
theorem metricsData_concat_of_entries_witness :
    (∃ segs : List (List (MetricDatum Example.Fixed3)),
        segs.length
            = (Example.scenario
                ++ [("unreported", Metric.Counter 9), ("latency", Metric.Timer Example.latency)]).length
          ∧ (metricsData Example.runtime Example.cfg 7
              (Example.scenario
                ++ [("unreported", Metric.Counter 9),
                    ("latency", Metric.Timer Example.latency)])).data = segs.flatten
          ∧ ∀ (i : Nat) (name : String) (m : Metric Example.Fixed3),
              (Example.scenario
                ++ [("unreported", Metric.Counter 9),
                    ("latency", Metric.Timer Example.latency)])[i]? = some (name, m) →
              ∃ seg, segs[i]? = some seg
                ∧ (metricsData Example.runtime Example.cfg 7
                    ((Example.scenario
                      ++ [("unreported", Metric.Counter 9),
                          ("latency", Metric.Timer Example.latency)]).take (i + 1))).data
                  = (metricsData Example.runtime Example.cfg 7
                      ((Example.scenario
                        ++ [("unreported", Metric.Counter 9),
                            ("latency", Metric.Timer Example.latency)]).take i)).data ++ seg
                ∧ (Example.cfg.Filter.ShouldReport name = false → seg = []))
      ∧ (metricsData Example.runtime Example.cfg 7
            (Example.scenario
              ++ [("unreported", Metric.Counter 9),
                  ("latency", Metric.Timer Example.latency)])).data.map (fun d => d.MetricName)
          = [ "req.count", "mem.used", "latency.five-minute", "latency.fifteen-minute",
              "latency.mean", "latency.count", "latency.one-minute", "latency-perc0.500",
              "latency-perc0.990" ] :=
  ⟨metricsData_concat_of_entries Example.runtime Example.cfg 7
      (Example.scenario
        ++ [("unreported", Metric.Counter 9), ("latency", Metric.Timer Example.latency)]),
    by decide⟩

/-! ### Units -/

/-- C20: the data points the call appends for a Counter, a Gauge or a
GaugeFloat64 carry the unit Count, those it appends for a Histogram, a Meter or
a Timer carry no unit, and every data point `metricsData` returns carries
either no unit or the unit Count. -/
theorem unit_by_kind (rt : Runtime F) (cfg : Config F) (now : Time) (pre : Registry F)
    (name : String) (m : Metric F) :
    (∃ pts : List (MetricDatum F),
        (metricsData rt cfg now (pre ++ [(name, m)])).data
            = (metricsData rt cfg now pre).data ++ pts
          ∧ ∀ d ∈ pts, d.Unit
              = match m with
                | Metric.Counter _ => some StandardUnitCount
                | Metric.Gauge _ => some StandardUnitCount
                | Metric.GaugeFloat64 _ => some StandardUnitCount
                | Metric.Histogram _ => none
                | Metric.Meter _ => none
                | Metric.Timer _ => none
                | Metric.Other => none)
      ∧ ∀ registry : Registry F, ∀ d ∈ (metricsData rt cfg now registry).data,
          d.Unit = none ∨ d.Unit = some StandardUnitCount := by
  constructor
  · rw [metricsData_snoc_data, metricsData_data]
    cases hf : cfg.Filter.ShouldReport name with
    | false =>
      exact ⟨[], by rw [visit_rejected rt cfg now name m _ hf, List.append_nil], by simp⟩
    | true =>
      rcases metric_kind m with hi | hi | rfl
      · obtain ⟨pts, h1, h2⟩ := visit_count_forall rt cfg now name
          (fun d => d.Unit = some StandardUnitCount) (fun _ _ _ => rfl) m hi hf
          (accAfter rt cfg now pre)
        refine ⟨pts, h1, ?_⟩
        rcases hi with ⟨c, rfl⟩ | ⟨v, rfl⟩ | ⟨x, rfl⟩ <;> exact h2
      · obtain ⟨pts, h1, h2⟩ := visit_snapshot_forall rt cfg now name
          (fun d => d.Unit = none) (fun _ _ _ => rfl) m hi hf (accAfter rt cfg now pre)
        refine ⟨pts, h1, ?_⟩
        rcases hi with ⟨h, rfl⟩ | ⟨x, rfl⟩ | ⟨t, rfl⟩ <;> exact h2
      · exact ⟨[], by rw [visit_other, List.append_nil], by simp⟩
  · intro registry
    exact metricsData_forall rt cfg now (fun d => d.Unit = none ∨ d.Unit = some StandardUnitCount)
      (fun _ _ _ => Or.inl rfl) (fun _ _ _ => Or.inr rfl) registry

/-- The scenario with the timer `"latency"` after it: the unit Count on the two
points of the counter and the gauge, no unit on the seven of the timer. -/
theorem unit_by_kind_witness :
    (∃ pts : List (MetricDatum Example.Fixed3),
        (metricsData Example.runtime Example.cfg 7
            (Example.scenario ++ [("latency", Metric.Timer Example.latency)])).data
            = (metricsData Example.runtime Example.cfg 7 Example.scenario).data ++ pts
          ∧ ∀ d ∈ pts, d.Unit = none)
      ∧ (metricsData Example.runtime Example.cfg 7
            (Example.scenario ++ [("latency", Metric.Timer Example.latency)])).data.map
              (fun d => d.Unit)
          = [some "Count", some "Count", none, none, none, none, none, none, none] :=
  ⟨(unit_by_kind Example.runtime Example.cfg 7 Example.scenario "latency"
      (Metric.Timer Example.latency)).1,
    by decide⟩

/-! ### The loop of `emitMetrics` and the Batcher of the specification -/

theorem spec_batch_unfold {α : Type} (points : List α) (maxSize : Nat) :
    Spec.batch points maxSize
      = if 0 < maxSize ∧ maxSize ≤ points.length then
          points.take maxSize :: Spec.batch (points.drop maxSize) maxSize
        else if points.length = 0 then []
        else [points] := by
  rw [Spec.batch]
  split <;> rfl

theorem spec_batch_nil {α : Type} (maxSize : Nat) :
    Spec.batch ([] : List α) maxSize = [] := by
  rw [spec_batch_unfold, if_neg (by simp; omega)]
  rfl

/-- The requests made by the loop of `emitMetrics` and the submission that
follows it are the batches of the specification, in order. -/
theorem emit_requests_eq_spec (cfg : Config F) (n : Nat) :
    ∀ (data : List (MetricDatum F)) (w : World F), data.length ≤ n →
      (if (emitLoop cfg data w).1.length > 0
        then putMetrics cfg (emitLoop cfg data w).1 (emitLoop cfg data w).2
        else (emitLoop cfg data w).2).requests
        = w.requests
          ++ (Spec.batch data 20).map (fun b => { Namespace := cfg.Namespace, MetricData := b }) := by
  induction n with
  | zero =>
    intro data w hn
    have hnil : data = [] := List.length_eq_zero.1 (by omega)
    subst hnil
    have hloop : emitLoop cfg ([] : List (MetricDatum F)) w = ([], w) := by
      rw [emitLoop_unfold]
      exact if_neg (by simp)
    rw [hloop, spec_batch_nil]
    simp
  | succ n ih =>
    intro data w hn
    by_cases h : data.length > 20
    · have hloop : emitLoop cfg data w
          = emitLoop cfg (data.drop 20) (putMetrics cfg (data.take 20) w) := by
        rw [emitLoop_unfold]
        exact if_pos h
      rw [hloop, ih (data.drop 20) _ (by simp; omega), putMetrics_requests,
        spec_batch_unfold data 20, if_pos ⟨by omega, by omega⟩]
      simp
    · have hloop : emitLoop cfg data w = (data, w) := by
        rw [emitLoop_unfold]
        exact if_neg h
      rw [hloop]
      dsimp only
      by_cases h0 : data.length > 0
      · rw [if_pos h0, putMetrics_requests]
        by_cases h20 : data.length = 20
        · rw [spec_batch_unfold data 20, if_pos ⟨by omega, by omega⟩,
            List.take_of_length_le (by omega), List.drop_of_length_le (by omega),
            spec_batch_nil]
          rfl
        · rw [spec_batch_unfold data 20, if_neg (by omega), if_neg (by omega)]
          rfl
      · have hnil : data = [] := List.length_eq_zero.1 (by omega)
        subst hnil
        rw [if_neg h0, spec_batch_nil]
        simp

theorem map_length_of_full {α : Type} (bs : List (List α)) (h : ∀ b ∈ bs, b.length = 20) :
    bs.map List.length = List.replicate bs.length 20 := by
  induction bs with
  | nil => rfl
  | cons b bs ih =>
    rw [List.map_cons, h b (List.mem_cons_self _ _),
      ih (fun c hc => h c (List.mem_cons_of_mem _ hc)), List.length_cons, List.replicate_succ]

/-- The sizes of the batches `emitMetrics` submits for `20 * k + r` data points,
`0 < r ≤ 20`: `k` times 20, then `r`. -/
theorem submitted_sizes (rt : Runtime F) (cfg : Config F) (now : Time)
    (registry : Registry F) (w : World F) (k r : Nat) (h0 : 0 < r) (h20 : r ≤ 20)
    (hlen : (metricsData rt cfg now registry).data.length = 20 * k + r) :
    (submitted w (emitMetrics rt cfg now registry w).1).map List.length
      = List.replicate k 20 ++ [r] := by
  obtain ⟨bs, rest, h1, h2, h3, h4, h5⟩ := emitMetrics_submitted rt cfg now registry w
  have hr := h5 (by omega)
  have hsum : (metricsData rt cfg now registry).data.length = 20 * bs.length + rest.length := by
    rw [← h2, List.length_append, length_flatten_of_full bs h3]
  have hk : bs.length = k := by omega
  have hrest : rest.length = r := by omega
  rw [h1, if_pos hr, List.map_append, map_length_of_full bs h3, hk, List.map_singleton, hrest]

/-- C18: the batches `emitMetrics` submits are those of the Batcher of the
specification with `maxSize` 20, for every input, the lengths that are multiples
of 20 included; every batch but the last has 20 elements; 45 data points give
batches of sizes 20, 20 and 5, and 40 data points give sizes 20 and 20. -/
theorem emitMetrics_refines_spec_batch (rt : Runtime F) (cfg : Config F) (now : Time)
    (registry : Registry F) (w : World F) :
    submitted w (emitMetrics rt cfg now registry w).1
        = Spec.batch (metricsData rt cfg now registry).data 20
      ∧ (∀ b ∈ (submitted w (emitMetrics rt cfg now registry w).1).dropLast, b.length = 20)
      ∧ ((metricsData rt cfg now registry).data.length = 45 →
          (submitted w (emitMetrics rt cfg now registry w).1).map List.length = [20, 20, 5])
      ∧ ((metricsData rt cfg now registry).data.length = 40 →
          (submitted w (emitMetrics rt cfg now registry w).1).map List.length = [20, 20]) := by
  refine ⟨?_, ?_, ?_, ?_⟩
  · have hreq := emit_requests_eq_spec cfg _ (metricsData rt cfg now registry).data w le_rfl
    unfold submitted emitMetrics
    dsimp only
    rw [hreq, List.drop_left, List.map_map]
    exact List.map_id _
  · obtain ⟨bs, rest, h1, -, h3, -, -⟩ := emitMetrics_submitted rt cfg now registry w
    intro b hb
    rw [h1] at hb
    by_cases hr : rest.length > 0
    · rw [if_pos hr, List.dropLast_concat] at hb
      exact h3 b hb
    · rw [if_neg hr, List.append_nil] at hb
      exact h3 b (List.dropLast_subset bs hb)
  · intro h45
    exact submitted_sizes rt cfg now registry w 2 5 (by omega) (by omega) h45
  · intro h40
    exact submitted_sizes rt cfg now registry w 1 20 (by omega) (by omega) h40

/-- Registries of 45 and of 40 gauges. -/
theorem emitMetrics_refines_spec_batch_witness :
    (metricsData Example.runtime Example.cfg 7 (Example.gauges 45)).data.length = 45
      ∧ (submitted Example.quiet
            (emitMetrics Example.runtime Example.cfg 7 (Example.gauges 45) Example.quiet).1).map
              List.length = [20, 20, 5]
      ∧ (metricsData Example.runtime Example.cfg 7 (Example.gauges 40)).data.length = 40
      ∧ (submitted Example.quiet
            (emitMetrics Example.runtime Example.cfg 7 (Example.gauges 40) Example.quiet).1).map
              List.length = [20, 20] :=
  ⟨by decide,
    (emitMetrics_refines_spec_batch Example.runtime Example.cfg 7 (Example.gauges 45)
      Example.quiet).2.2.1 (by decide),
    by decide,
    (emitMetrics_refines_spec_batch Example.runtime Example.cfg 7 (Example.gauges 40)
      Example.quiet).2.2.2 (by decide)⟩

end Reporter
